import Mathlib

/-!
Verification model of `p1-slimmelezer.py` (P1 smart-meter reader).

Shallow embedding conventions:
* A Python string is modelled as `List Char`; a "line" is the content of one
  `\r\n`-delimited record (so it contains no newline in any well-formed run).
* Python `float` values that flow through the numeric paths are modelled
  exactly: decimal field values as exact fixed-point numbers (`Dec`),
  wall-clock and datetime quantities as integer microseconds; Python `int`
  as `Int`.  IEEE-754 rounding noise is outside the model (noted where it
  matters).
* A fallible Python operation (`float(s)`, `int(s)`, `strptime`) is modelled
  as an `Option`: `none` is an uncaught `ValueError`/`AttributeError`.
* The regex patterns `P1_ONE_VALUE_RGX`, `P1_TWO_VALUES_RGX` and
  `P1_MORE_THAN_TWO_VALUES_RGX` combined with `re.search` are embedded as
  deterministic matchers (`searchOne`, `searchTwo`, `searchMore`); for these
  end-anchored patterns whose quantified atoms are the single-character
  classes `\d`, `[^(]` and `.`, backtracking collapses to the unique
  decompositions implemented below.  `\d` is modelled as ASCII digits.
* Naive `datetime` values and `time.time()` readings are modelled as
  integer microseconds since the epoch (the resolution of `datetime`); the
  several clock reads made while handling one line are modelled as a single
  instant `now` (they are intended to denote the same instant), and the
  local timezone is modelled as UTC so that `datetime.timestamp()` is the
  identity on epoch seconds.
-/

/-- ASCII digit test, the model of the regex class `\d`. -/
def isDig (c : Char) : Bool := '0' ≤ c && c ≤ '9'

/-- Numeric value of an ASCII digit. -/
def digVal (c : Char) : Nat := c.toNat - 48

/-- Split a Python-style maximal run of digits off the front of a string
(the deterministic reading of a greedy `\d+` followed by a non-digit). -/
def takeDigits : List Char → List Char × List Char
  | [] => ([], [])
  | c :: r =>
    if isDig c then
      let p := takeDigits r
      (c :: p.1, p.2)
    else ([], c :: r)

/-- Split a string at the first occurrence of character `c`:
returns the part before and the part after (the occurrence removed). -/
def splitAtFirst (c : Char) : List Char → Option (List Char × List Char)
  | [] => none
  | x :: r =>
    if x = c then some ([], r)
    else (splitAtFirst c r).map (fun p => (x :: p.1, p.2))

/-- Parser for the tag-key shape `\d+\-\d+:\d+\.\d+\.\d+` at the current
position, returning the consumed key and the rest.  The greedy `\d+` groups
are deterministic maximal munches because every delimiter is a non-digit. -/
def keyParse (cs : List Char) : Option (List Char × List Char) :=
  let p1 := takeDigits cs
  if p1.1 = [] then none else
  match p1.2 with
  | '-' :: r1 =>
    let p2 := takeDigits r1
    if p2.1 = [] then none else
    match p2.2 with
    | ':' :: r2 =>
      let p3 := takeDigits r2
      if p3.1 = [] then none else
      match p3.2 with
      | '.' :: r3 =>
        let p4 := takeDigits r3
        if p4.1 = [] then none else
        match p4.2 with
        | '.' :: r4 =>
          let p5 := takeDigits r4
          if p5.1 = [] then none else
          some (p1.1 ++ '-' :: p2.1 ++ ':' :: p3.1 ++ '.' :: p4.1 ++ '.' :: p5.1, p5.2)
        | _ => none
      | _ => none
    | _ => none
  | _ => none

/-- Match of `P1_ONE_VALUE_RGX` = `key\((?P<value>[^(]*?)\)$` anchored at the
current position: after the key and `(`, the end anchor forces the value to
be everything up to a final `)`, with no `(` inside. -/
def oneAt (cs : List Char) : Option (List Char × List Char) :=
  match keyParse cs with
  | none => none
  | some (k, rest) =>
    match rest with
    | '(' :: r =>
      if r ≠ [] ∧ r.getLast? = some ')' ∧ '(' ∉ r.dropLast then
        some (k, r.dropLast)
      else none
    | _ => none

/-- Match of `P1_TWO_VALUES_RGX` = `key\((v1:[^(]*?)\)\((v2:[^(]*?)\)$` at the
current position: since neither group may contain `(`, the `)(` boundary must
sit at the first `(` of the remainder, and `v2` runs to the final `)`. -/
def twoAt (cs : List Char) : Option (List Char × List Char × List Char) :=
  match keyParse cs with
  | none => none
  | some (k, rest) =>
    match rest with
    | '(' :: r =>
      match splitAtFirst '(' r with
      | none => none
      | some (pre, post) =>
        if pre.getLast? = some ')' ∧ post.getLast? = some ')' ∧ '(' ∉ post.dropLast then
          some (k, pre.dropLast, post.dropLast)
        else none
    | _ => none

/-- Match of `P1_MORE_THAN_TWO_VALUES_RGX` =
`key\((v:[^(]*?)\)\((v2:[^(]*?)\(.*\)$` at the current position: `v` ends at
the first `(` of the remainder (preceded by `)`), `v2` ends at the next `(`,
and the greedy `.*` only requires the line to end with `)`. -/
def moreAt (cs : List Char) : Option (List Char × List Char × List Char) :=
  match keyParse cs with
  | none => none
  | some (k, rest) =>
    match rest with
    | '(' :: r =>
      match splitAtFirst '(' r with
      | none => none
      | some (pre, post) =>
        if pre.getLast? = some ')' then
          match splitAtFirst '(' post with
          | none => none
          | some (pre2, post2) =>
            if post2.getLast? = some ')' then some (k, pre.dropLast, pre2)
            else none
        else none
    | _ => none

/-- Model of `re.search` with `oneAt`: try every start position from the left. -/
def searchOne : List Char → Option (List Char × List Char)
  | [] => none
  | c :: rest =>
    match oneAt (c :: rest) with
    | some r => some r
    | none => searchOne rest

/-- Model of `re.search` with `twoAt`: try every start position from the left. -/
def searchTwo : List Char → Option (List Char × List Char × List Char)
  | [] => none
  | c :: rest =>
    match twoAt (c :: rest) with
    | some r => some r
    | none => searchTwo rest

/-- Model of `re.search` with `moreAt`: try every start position from the left. -/
def searchMore : List Char → Option (List Char × List Char × List Char)
  | [] => none
  | c :: rest =>
    match moreAt (c :: rest) with
    | some r => some r
    | none => searchMore rest

/-- Python substring containment `pat in s`. -/
def hasSubstr (pat : List Char) : List Char → Bool
  | [] => pat = []
  | c :: t => decide (pat <+: (c :: t)) || hasSubstr pat t

/-- Model of `value.split('*')[0]`: the part of the string before the first `*`
(the whole string when there is no `*`). -/
def beforeStar (cs : List Char) : List Char :=
  match splitAtFirst '*' cs with
  | none => cs
  | some p => p.1

/-- Natural number denoted by a digit string. -/
def digitsVal : List Char → Nat
  | [] => 0
  | c :: r => digitsVal r + digVal c * 10 ^ r.length

/-- An exact decimal number `m / 10 ^ e`: the model of a Python `float`
produced by `float(...)` on a decimal string.  The source's float
arithmetic is modelled as exact decimal arithmetic (IEEE-754 rounding
noise is outside the model). -/
structure Dec where
  m : Int
  e : Nat
deriving DecidableEq, Repr

/-- Model of Python `float(s)` on its simple decimal forms
`[+|-] digits [. digits]` / `[+|-] . digits` (the forms P1 values take);
`none` models the `ValueError` raised on anything malformed.  (Python also
strips whitespace and accepts exponent forms, which never occur here.) -/
def pyFloat (cs : List Char) : Option Dec :=
  let signed : Int × List Char :=
    match cs with
    | '+' :: r => (1, r)
    | '-' :: r => (-1, r)
    | r => (1, r)
  let body := signed.2
  match splitAtFirst '.' body with
  | none =>
    if body ≠ [] ∧ body.all isDig then
      some { m := signed.1 * (digitsVal body : Int), e := 0 }
    else none
  | some (a, b) =>
    if (a ≠ [] ∨ b ≠ []) ∧ a.all isDig ∧ b.all isDig then
      some { m := signed.1 * ((digitsVal a : Int) * 10 ^ b.length + digitsVal b),
             e := b.length }
    else none

/-- Model of Python `int(s)` on decimal strings, `none` = `ValueError`. -/
def pyIntOfString (cs : List Char) : Option Int :=
  let signed : Int × List Char :=
    match cs with
    | '+' :: r => (1, r)
    | '-' :: r => (-1, r)
    | r => (1, r)
  if signed.2 ≠ [] ∧ signed.2.all isDig then
    some (signed.1 * (digitsVal signed.2 : Int))
  else none

/-- Python `int(1000 * x)` on an exact decimal `x`: scale by 1000 and
truncate toward zero (`Int.tdiv` rounds toward zero, as Python `int()`
does on a float). -/
def scale1000Trunc (d : Dec) : Int := (1000 * d.m).tdiv (10 ^ d.e)

/-- A parsed P1 field value: Python `int`, `float` or `str`. -/
inductive FieldValue where
  | i : Int → FieldValue
  | f : Dec → FieldValue
  | s : List Char → FieldValue
deriving DecidableEq, Repr

/-- Model of `SlimmeLezer.parse_p1_value`: unit conversion keyed on substring
containment (`'*m3' in value`, ...), tested in source order; the numeric
part is the substring before the first `*`.  `none` models the uncaught
`ValueError` when `float`/`int` rejects that part. -/
def parse_p1_value (value : List Char) : Option FieldValue :=
  if hasSubstr "*m3".toList value then
    (pyFloat (beforeStar value)).map (fun d => FieldValue.i (scale1000Trunc d))
  else if hasSubstr "*kW".toList value then
    (pyFloat (beforeStar value)).map (fun d => FieldValue.i (scale1000Trunc d))
  else if hasSubstr "*V".toList value then
    (pyFloat (beforeStar value)).map FieldValue.f
  else if hasSubstr "*A".toList value then
    (pyIntOfString (beforeStar value)).map FieldValue.i
  else some (FieldValue.s value)

/-- Proleptic-Gregorian leap-year test. -/
def isLeap (y : Int) : Bool := (y % 4 = 0 && y % 100 ≠ 0) || y % 400 = 0

/-- Number of days in a month. -/
def daysInMonth (y : Int) (m : Nat) : Nat :=
  if m = 2 then (if isLeap y then 29 else 28)
  else if m = 4 ∨ m = 6 ∨ m = 9 ∨ m = 11 then 30
  else 31

/-- Days since 1970-01-01 of a Gregorian civil date (standard
days-from-civil computation). -/
def daysFromCivil (y : Int) (m d : Nat) : Int :=
  let y' : Int := if m ≤ 2 then y - 1 else y
  let era : Int := y'.fdiv 400
  let yoe : Int := y' - era * 400
  let mp : Nat := if 2 < m then m - 3 else m + 9
  let doy : Int := ((153 * mp + 2) / 5 + d - 1 : Nat)
  let doe : Int := yoe * 365 + yoe.fdiv 4 - yoe.fdiv 100 + doy
  era * 146097 + doe - 719468

/-- Model of parsing the device timestamp field: the source runs
`datetime.strptime(v.replace('S','CEST').replace('W','CET'),'%y%m%d%H%M%S%Z')`,
which on a well-formed P1 stamp (12 digits followed by `S` or `W`) yields
the naive datetime of those digits, and raises `ValueError` otherwise
(modelled as `none`).  This assumes the deployment's local timezone
supplies the names CEST/CET for `%Z`, the configuration the program is
written for.  The result is the stamp's epoch seconds (naive datetimes are
modelled on the UTC timeline).  Python's `%y` maps 00-68 to 2000-2068 and
69-99 to 1969-1999; `strptime` range-checks month, day, hour, minute and
second. -/
def parseDeviceTimestamp (cs : List Char) : Option Int :=
  match cs with
  | [y1, y2, mo1, mo2, d1, d2, h1, h2, mi1, mi2, s1, s2, tz] =>
    if ([y1, y2, mo1, mo2, d1, d2, h1, h2, mi1, mi2, s1, s2].all isDig)
        ∧ (tz = 'S' ∨ tz = 'W') then
      let yy := 10 * digVal y1 + digVal y2
      let mo := 10 * digVal mo1 + digVal mo2
      let dd := 10 * digVal d1 + digVal d2
      let hh := 10 * digVal h1 + digVal h2
      let mi := 10 * digVal mi1 + digVal mi2
      let ss := 10 * digVal s1 + digVal s2
      let year : Int := if yy ≤ 68 then 2000 + yy else 1900 + yy
      if 1 ≤ mo ∧ mo ≤ 12 ∧ 1 ≤ dd ∧ dd ≤ daysInMonth year mo
          ∧ hh ≤ 23 ∧ mi ≤ 59 ∧ ss ≤ 59 then
        some (86400 * daysFromCivil year mo dd + (3600 * hh + 60 * mi + ss : Nat))
      else none
    else none
  | _ => none

/-- One second, in the model's microsecond time unit. -/
def usec : Int := 1000000

/-- One day in microseconds. -/
def dayUs : Int := 86400 * usec

/-- Python `round(x)` (half to even) applied to a time value held in
integer microseconds, yielding whole epoch seconds. -/
def roundMicros (m : Int) : Int :=
  let f := m.fdiv usec
  let r := m.fmod usec
  if r < 500000 then f
  else if 500000 < r then f + 1
  else if f % 2 = 0 then f else f + 1

/-- Python `timedelta.seconds` of the difference of two datetimes given in
integer microseconds: `timedelta` normalizes to
`(days, seconds, microseconds)` with `0 ≤ seconds < 86400`, so the
`seconds` component is the floor-remainder modulo one day, scaled down —
the whole-day part of the difference is discarded. -/
def timedeltaSeconds (diff : Int) : Int := (diff.fmod dayUs).fdiv usec

/-- Association-list model of a Python `dict`: replace in place when the key
exists, append otherwise. -/
def upsert : List (List Char × FieldValue) → List Char → FieldValue →
    List (List Char × FieldValue)
  | [], k, v => [(k, v)]
  | (k', v') :: r, k, v =>
    if k' = k then (k, v) :: r else (k', v') :: upsert r k v

/-- Python `dict` lookup (first — and only — binding of a key). -/
def lookupField : List (List Char × FieldValue) → List Char → Option FieldValue
  | [], _ => none
  | (k', v') :: r, k => if k' = k then some v' else lookupField r k

/-- The mandatory timestamp tag `0-0:1.0.0`. -/
def tagKey : List Char := "0-0:1.0.0".toList

/-- Python `'0-0:1.0.0' in self.data['telegram']`. -/
def hasTag (tg : List (List Char × FieldValue)) : Bool :=
  (lookupField tg tagKey).isSome

/-- A footer line: starts with `!` and is exactly 5 characters long. -/
def isFooter (l : List Char) : Bool := l.head? = some '!' && l.length = 5

/-- The configuration the core consumes: the resync period in seconds
(`timesync_period`, default 86400). -/
structure Config where
  timesyncPeriod : Int
deriving DecidableEq, Repr

/-- The process state of `SlimmeLezer` as driven by `read_datagram`:
the datagram-framer fields plus the clock-synchronizer fields.  All time
fields are integer microseconds since the epoch (the granularity of
Python's `datetime`; `time.time()` readings are modelled at the same
granularity).  `skipRemaining` linearizes the nested `skip_datagram`
loop: a nonzero value means the loop is discarding lines until that many
further footer lines have been consumed (entering it resets
`first_line_read` and `data`). -/
structure SLState where
  skipRemaining : Nat
  firstLineRead : Bool
  telegram : List (List Char × FieldValue)
  frameStartTime : Int
  datagramCounter : Nat
  firstDatagramTime : Int
  firstDatagramTimestamp : Int
  deltaTime : Int
  previousBlock : Int
deriving DecidableEq, Repr

/-- The `meta` object of one outbound message.  `datagramTimestamp` stands
for the formatted `datagram-timestamp` string (it carries the same parsed
device time, as epoch seconds); `telegramTimestamp` is epoch seconds;
`clockDrift` is the `delta_time` float — exact at the model's microsecond
granularity, so Python's `round(x, 6)` is the identity on it — held in
integer microseconds; the remaining time fields are integer microseconds
and `frameDuration` whole milliseconds. -/
structure Meta where
  datagramTimestamp : Int
  telegramTimestamp : Int
  clockDrift : Int
  currentTime : Int
  frameStartTime : Int
  frameEndTime : Int
  frameDuration : Int
  frameNumber : Nat
deriving DecidableEq, Repr

/-- One serialized outbound multicast message. -/
structure Message where
  meta : Meta
  telegram : List (List Char × FieldValue)
deriving DecidableEq, Repr

/-- The `SlimmeLezer.__init__` state (plus `read_datagram`'s startup state):
references seeded two resync periods in the past, zero drift, window 0,
and `skip_count` datagrams to be skipped before the main loop. -/
def initState (cfg : Config) (now0 : Int) (skipCount : Nat) : SLState :=
  { skipRemaining := skipCount
    firstLineRead := false
    telegram := []
    frameStartTime := 0
    datagramCounter := 0
    firstDatagramTime := now0 - 2 * cfg.timesyncPeriod * usec
    firstDatagramTimestamp := now0 - 2 * cfg.timesyncPeriod * usec
    deltaTime := 0
    previousBlock := 0 }

/-- Model of `SlimmeLezer.process_datagram`, entered with the finalized telegram
(checksum already added) in `s.telegram`.  Returns the updated state and
the published message, or `none` for an uncaught exception (`ValueError`
from `strptime` on a malformed timestamp value, or `AttributeError` when
the timestamp field was unit-converted to a number).  `now` (microseconds)
models the wall-clock instant: the several `time.time()` /
`datetime.now()` reads made while processing one datagram denote the same
instant.  The resync window is `int(time.time()) // timesync_period`
(truncate to whole seconds, then floor-divide); the drift
`(frame_start - first_datagram_time) - (t_dev - first_datagram_timestamp)`
is recomputed only when that window differs from the stored block, in
which case the references are re-anchored to `now` / `t_dev`.
`delta_time_in_seconds` is Python's `timedelta.seconds` of
`datagram_timestamp - first_datagram_timestamp`. -/
def process_datagram (cfg : Config) (s : SLState) (now frameEnd : Int)
    (duration : Int) : Option (SLState × Option Message) :=
  match lookupField s.telegram tagKey with
  | none => some (s, none)
  | some (FieldValue.s raw) =>
    match parseDeviceTimestamp raw with
    | none => none
    | some tdev =>
      let window : Int := (now.tdiv usec).fdiv cfg.timesyncPeriod
      let s1 :=
        if window ≠ s.previousBlock then
          { s with
            deltaTime := (s.frameStartTime - s.firstDatagramTime) -
              (tdev * usec - s.firstDatagramTimestamp)
            firstDatagramTime := now
            firstDatagramTimestamp := tdev * usec
            previousBlock := window }
        else s
      let deltaSec : Int := timedeltaSeconds (tdev * usec - s1.firstDatagramTimestamp)
      let telegramDate : Int := s1.firstDatagramTime + deltaSec * usec
      let meta : Meta :=
        { datagramTimestamp := tdev
          telegramTimestamp := roundMicros telegramDate
          clockDrift := s1.deltaTime
          currentTime := now
          frameStartTime := s.frameStartTime
          frameEndTime := frameEnd
          frameDuration := duration
          frameNumber := s1.datagramCounter }
      some (s1, some { meta := meta, telegram := s1.telegram })
  | some _ => none

/-- The field-parsing block of the `read_datagram` loop (source lines
253-280): the three patterns are tried in order — more-than-two values,
two values, one value — and a line matching none of them is logged as
unparsed and otherwise ignored.  For the more-than-two match, both
extracted values are unit-converted but only the tag and the first value
are stored.  Returns the updated telegram dict, or `none` when
`parse_p1_value` raises. -/
def parseDataLine (tg : List (List Char × FieldValue)) (line : List Char) :
    Option (List (List Char × FieldValue)) :=
  match searchMore line with
  | some (k, v, v2) =>
    match parse_p1_value v, parse_p1_value v2 with
    | some val, some _ => some (upsert tg k val)
    | _, _ => none
  | none =>
    match searchTwo line with
    | some (k, v1, v2) =>
      match parse_p1_value v1, parse_p1_value v2 with
      | some a, some b => some (upsert (upsert tg (k ++ ".A".toList) a) (k ++ ".B".toList) b)
      | _, _ => none
    | none =>
      match searchOne line with
      | some (k, v) =>
        match parse_p1_value v with
        | some val => some (upsert tg k val)
        | none => none
      | none => some tg

/-- One iteration of the `read_datagram` main loop on one input line read
at wall-clock instant `now` (microseconds), with `skip_datagram`
linearized through `skipRemaining`.  Returns the new state and the message
published by this iteration, or `none` when the iteration raises an
uncaught exception. -/
def stepLine (cfg : Config) (s : SLState) (line : List Char) (now : Int) :
    Option (SLState × Option Message) :=
  if s.skipRemaining ≠ 0 then
    if isFooter line then
      some ({ s with skipRemaining := s.skipRemaining - 1 }, none)
    else some (s, none)
  else if line.length = 0 then
    some (s, none)
  else if ¬s.firstLineRead ∧ line.head? = some '/' then
    some ({ s with
            firstLineRead := true
            telegram := upsert s.telegram ("header".toList) (FieldValue.s line)
            frameStartTime := now
            datagramCounter := s.datagramCounter + 1 }, none)
  else if ¬s.firstLineRead then
    some ({ s with skipRemaining := 2, firstLineRead := false, telegram := [] }, none)
  else if isFooter line then
    let tg := upsert s.telegram ("checksum".toList) (FieldValue.s (line.drop 1))
    let s1 := { s with telegram := tg }
    let duration := (now - s.frameStartTime).tdiv 1000
    match (if hasTag tg then process_datagram cfg s1 now now duration
           else some (s1, none)) with
    | none => none
    | some (s2, m) =>
      some ({ s2 with firstLineRead := false, telegram := [] }, m)
  else
    (parseDataLine s.telegram line).map (fun tg => ({ s with telegram := tg }, none))

/-- Run the main loop over a list of (line, wall-clock instant) pairs,
collecting the published messages; the final state is `none` when an
uncaught exception terminated the loop. -/
def runLines (cfg : Config) (s : SLState) :
    List (List Char × Int) → List Message × Option SLState
  | [] => ([], some s)
  | (l, t) :: rest =>
    match stepLine cfg s l t with
    | none => ([], none)
    | some (s', m) =>
      let r := runLines cfg s' rest
      (m.toList ++ r.1, r.2)

/-- The default configuration: resync period 86400 s. -/
def cfgDefault : Config := { timesyncPeriod := 86400 }

/-- A ready state: startup skipping finished, awaiting a header, clock
references seeded at startup instant 1728000000 s. -/
def sReady : SLState := initState cfgDefault 1728000000000000 0

/-- A state in the middle of a datagram whose header arrived at epoch
instant 1728000010 s (used to exercise single data lines). -/
def sInDatagram : SLState :=
  { sReady with
    firstLineRead := true
    frameStartTime := 1728000010000000
    datagramCounter := 1 }

/-- A clock state that resynced within the current window (window 20000 of
the default 86400 s period): device reference `241001000000S` = 1727740800
and wall reference 1727740800 s, holding a finalized telegram whose device
timestamp `241002000000S` = 1727827200 lies exactly one day after the
device reference. -/
def sC1 : SLState :=
  { skipRemaining := 0
    firstLineRead := true
    telegram := [(tagKey, FieldValue.s "241002000000S".toList)]
    frameStartTime := 1728000000000000
    datagramCounter := 1
    firstDatagramTime := 1727740800000000
    firstDatagramTimestamp := 1727740800000000
    deltaTime := 0
    previousBlock := 20000 }

/-- The shape the regex key group requires: five nonempty digit runs
separated by `-`, `:`, `.`, `.`. -/
abbrev TagParts (d1 d2 d3 d4 d5 : List Char) : Prop :=
  d1 ≠ [] ∧ d2 ≠ [] ∧ d3 ≠ [] ∧ d4 ≠ [] ∧ d5 ≠ [] ∧
  (∀ c ∈ d1, isDig c = true) ∧ (∀ c ∈ d2, isDig c = true) ∧
  (∀ c ∈ d3, isDig c = true) ∧ (∀ c ∈ d4, isDig c = true) ∧
  (∀ c ∈ d5, isDig c = true)

/-- The tag string assembled from its five digit runs. -/
def mkTag (d1 d2 d3 d4 d5 : List Char) : List Char :=
  d1 ++ '-' :: d2 ++ ':' :: d3 ++ '.' :: d4 ++ '.' :: d5

/-- Number of footer lines in a stream of (line, time) pairs. -/
def footerCount (ls : List (List Char × Int)) : Nat :=
  ls.countP (fun p => isFooter p.1)

/-- A concrete startup stream of eleven footer-delimited datagrams; only
the eleventh carries checksum `zzzz`. -/
def c9Stream : List (List Char × Int) :=
  [
    ("/ISK5".toList, 1728000003000000),
    ("0-0:1.0.0(241001120001S)".toList, 1728000004000000),
    ("!aaaa".toList, 1728000005000000),
    ("/ISK5".toList, 1728000006000000),
    ("0-0:1.0.0(241001120002S)".toList, 1728000007000000),
    ("!aaaa".toList, 1728000008000000),
    ("/ISK5".toList, 1728000009000000),
    ("0-0:1.0.0(241001120003S)".toList, 1728000010000000),
    ("!aaaa".toList, 1728000011000000),
    ("/ISK5".toList, 1728000012000000),
    ("0-0:1.0.0(241001120004S)".toList, 1728000013000000),
    ("!aaaa".toList, 1728000014000000),
    ("/ISK5".toList, 1728000015000000),
    ("0-0:1.0.0(241001120005S)".toList, 1728000016000000),
    ("!aaaa".toList, 1728000017000000),
    ("/ISK5".toList, 1728000018000000),
    ("0-0:1.0.0(241001120006S)".toList, 1728000019000000),
    ("!aaaa".toList, 1728000020000000),
    ("/ISK5".toList, 1728000021000000),
    ("0-0:1.0.0(241001120007S)".toList, 1728000022000000),
    ("!aaaa".toList, 1728000023000000),
    ("/ISK5".toList, 1728000024000000),
    ("0-0:1.0.0(241001120008S)".toList, 1728000025000000),
    ("!aaaa".toList, 1728000026000000),
    ("/ISK5".toList, 1728000027000000),
    ("0-0:1.0.0(241001120009S)".toList, 1728000028000000),
    ("!aaaa".toList, 1728000029000000),
    ("/ISK5".toList, 1728000030000000),
    ("0-0:1.0.0(241001120010S)".toList, 1728000031000000),
    ("!aaaa".toList, 1728000032000000),
    ("/ISK5".toList, 1728000033000000),
    ("0-0:1.0.0(241001120011S)".toList, 1728000034000000),
    ("!zzzz".toList, 1728000035000000) ]

/-- A concrete stretch of two datagrams read within a single resync
window (window 20000 of the default period). -/
def c2Stream : List (List Char × Int) :=
  [ ("/ISK5".toList, 1728000001000000),
    ("0-0:1.0.0(241004000001S)".toList, 1728000002000000),
    ("!d001".toList, 1728000003000000),
    ("/ISK5".toList, 1728000011000000),
    ("0-0:1.0.0(241004000011S)".toList, 1728000012000000),
    ("!d002".toList, 1728000013000000) ]

/-- The state right after a header line is recognized at instant `t0`
(source lines 222-230). -/
def headerState (s : SLState) (header : List Char) (t0 : Int) : SLState :=
  { s with
    firstLineRead := true
    telegram := upsert s.telegram ("header".toList) (FieldValue.s header)
    frameStartTime := t0
    datagramCounter := s.datagramCounter + 1 }

/-- The startup clock state at wall instant 1728000000 s holding a
finalized telegram with device timestamp `241002000000S`, its header
having arrived at frame-start 1728000045 s. -/
def sC10w : SLState :=
  { initState cfgDefault 1728000000000000 0 with
    firstLineRead := true
    telegram := [(tagKey, FieldValue.s "241002000000S".toList)]
    frameStartTime := 1728000045000000
    datagramCounter := 1 }

/-- The concrete in-datagram state after the witness datagram's header and
timestamp line. -/
def c5Mid : SLState :=
  { skipRemaining := 0
    firstLineRead := true
    telegram := [("header".toList, FieldValue.s "/ISK5".toList),
                 (tagKey, FieldValue.s "241002000000S".toList)]
    frameStartTime := 1728000010000000
    datagramCounter := 1
    firstDatagramTime := 1727827200000000
    firstDatagramTimestamp := 1727827200000000
    deltaTime := 0
    previousBlock := 0 }

/-- C1, counterexample.  The claim predicts corrected timestamp
`referenceWallTime + wholeSeconds(T_dev − referenceDeviceTime)` for every
magnitude and sign of the difference.  Here the difference is exactly one
day (86400 s), so the claim predicts epoch second `1727740800 + 86400`;
the code computes `delta_time_in_seconds` with Python's
`timedelta.seconds`, which discards the whole-day component, and attaches
`1727740800 + 0` to the meta fields instead. -/
theorem C1_counterexample :
    (stepLine cfgDefault sC1 ("!abcd".toList) 1728000050000000).map
        (fun p => p.2.map (fun m => m.meta.telegramTimestamp)) =
      some (some 1727740800) ∧
    (1727740800 : Int) ≠ 1727740800 + 86400 := by
  exact ⟨by decide, by decide⟩

/-- C3, counterexample.  The raw value `1*V2` has no recognized unit
suffix (it ends in `V2`, not in `*m3`/`*kW`/`*V`/`*A`), so the claim
requires the unchanged raw string; the code tests substring containment
(`'*V' in value`) and converts it to the float 1.0 instead. -/
theorem C3_counterexample :
    (List.isSuffixOf "*m3".toList "1*V2".toList = false ∧
     List.isSuffixOf "*kW".toList "1*V2".toList = false ∧
     List.isSuffixOf "*V".toList "1*V2".toList = false ∧
     List.isSuffixOf "*A".toList "1*V2".toList = false) ∧
    parse_p1_value ("1*V2".toList) = some (FieldValue.f { m := 1, e := 0 }) ∧
    parse_p1_value ("1*V2".toList) ≠ some (FieldValue.s ("1*V2".toList)) := by
  exact ⟨by decide, by decide, by decide⟩

/-- C5, counterexample.  A datagram bounded by a header and a 5-character
`!`-footer and containing the tag `0-0:1.0.0` (here with value `x`) is
claimed to be published exactly once with the framer returning to
awaiting-header; the code instead raises an uncaught `ValueError` inside
`strptime` on the malformed timestamp value: nothing is published and the
loop dies. -/
theorem C5_counterexample :
    runLines cfgDefault sReady
        [("/ISK5".toList, 1728000010000000), ("0-0:1.0.0(x)".toList, 1728000011000000),
         ("!abcd".toList, 1728000013000000)] = ([], none) := by
  decide

/-- C7, counterexample.  The data line `1-2:3.4.5(*A)` matches the
one-value pattern, and `parse_p1_value` then evaluates `int('')`, which
raises an uncaught `ValueError` — field parsing can abort the datagram
and terminate the process, contrary to the claim. -/
theorem C7_counterexample :
    stepLine cfgDefault sInDatagram ("1-2:3.4.5(*A)".toList) 1728000012000000 = none := by
  decide

/-- C10, counterexample.  From the freshly initialized clock state (seeded
two periods in the past, `previous_timesync_period_block = 0`), a first
datagram arriving at wall time 100 s — whose window `100 // 86400 = 0`
equals the initial block — does NOT trigger a drift recomputation: the
datagram is published with the initial zero drift and the references keep
their seeded values, contrary to the claim's "for every wall-clock time".
(The seeding two periods back plays no role in the trigger at all; only
the window comparison does.) -/
theorem C10_counterexample :
    (runLines cfgDefault (initState cfgDefault 50000000 0)
        [("/ISK5".toList, 60000000), ("0-0:1.0.0(700101010000W)".toList, 70000000),
         ("!abcd".toList, 100000000)]).2.map
        (fun st => (st.deltaTime, st.firstDatagramTime, st.previousBlock)) =
      some (0, -172750000000, 0) ∧
    (runLines cfgDefault (initState cfgDefault 50000000 0)
        [("/ISK5".toList, 60000000), ("0-0:1.0.0(700101010000W)".toList, 70000000),
         ("!abcd".toList, 100000000)]).1.map (fun m => m.meta.clockDrift) = [0] := by
  exact ⟨by decide, by decide⟩

theorem takeDigits_split : ∀ cs : List Char, cs = (takeDigits cs).1 ++ (takeDigits cs).2
  | [] => rfl
  | c :: r => by
    simp only [takeDigits]
    by_cases h : isDig c = true
    · simp [h]
      exact takeDigits_split r
    · simp [h]

theorem takeDigits_digits : ∀ cs : List Char, ∀ c ∈ (takeDigits cs).1, isDig c = true
  | [] => by simp [takeDigits]
  | c :: r => by
    simp only [takeDigits]
    by_cases h : isDig c = true
    · simp [h]
      exact fun x hx => takeDigits_digits r x hx
    · simp [h]

theorem takeDigits_append (d r : List Char) (hd : ∀ c ∈ d, isDig c = true)
    (hr : ∀ c, r.head? = some c → isDig c = false) :
    takeDigits (d ++ r) = (d, r) := by
  induction d with
  | nil =>
    cases r with
    | nil => rfl
    | cons c t =>
      have := hr c rfl
      simp [takeDigits, this]
  | cons c t ih =>
    have hc := hd c (by simp)
    simp only [List.cons_append, takeDigits, hc, if_pos]
    have := ih (fun x hx => hd x (by simp [hx]))
    simp only [List.append_eq] at this ⊢
    rw [this]

theorem keyParse_structured (d1 d2 d3 d4 d5 rest : List Char)
    (h : TagParts d1 d2 d3 d4 d5)
    (hrest : ∀ c, rest.head? = some c → isDig c = false) :
    keyParse (mkTag d1 d2 d3 d4 d5 ++ rest) = some (mkTag d1 d2 d3 d4 d5, rest) := by
  obtain ⟨n1, n2, n3, n4, n5, g1, g2, g3, g4, g5⟩ := h
  have hL : mkTag d1 d2 d3 d4 d5 ++ rest =
      d1 ++ '-' :: (d2 ++ ':' :: (d3 ++ '.' :: (d4 ++ '.' :: (d5 ++ rest)))) := by
    simp [mkTag]
  have e1 : takeDigits (d1 ++ '-' :: (d2 ++ ':' :: (d3 ++ '.' :: (d4 ++ '.' :: (d5 ++ rest))))) =
      (d1, '-' :: (d2 ++ ':' :: (d3 ++ '.' :: (d4 ++ '.' :: (d5 ++ rest))))) :=
    takeDigits_append _ _ g1 (by intro c hc; cases hc; decide)
  have e2 : takeDigits (d2 ++ ':' :: (d3 ++ '.' :: (d4 ++ '.' :: (d5 ++ rest)))) =
      (d2, ':' :: (d3 ++ '.' :: (d4 ++ '.' :: (d5 ++ rest)))) :=
    takeDigits_append _ _ g2 (by intro c hc; cases hc; decide)
  have e3 : takeDigits (d3 ++ '.' :: (d4 ++ '.' :: (d5 ++ rest))) =
      (d3, '.' :: (d4 ++ '.' :: (d5 ++ rest))) :=
    takeDigits_append _ _ g3 (by intro c hc; cases hc; decide)
  have e4 : takeDigits (d4 ++ '.' :: (d5 ++ rest)) = (d4, '.' :: (d5 ++ rest)) :=
    takeDigits_append _ _ g4 (by intro c hc; cases hc; decide)
  have e5 : takeDigits (d5 ++ rest) = (d5, rest) := takeDigits_append _ _ g5 hrest
  rw [hL]
  simp only [keyParse, e1, e2, e3, e4, e5, n1, n2, n3, n4, n5, if_neg]
  simp [mkTag, n1, n2, n3, n4, n5]

theorem splitAtFirst_append (c : Char) (a b : List Char) (ha : c ∉ a) :
    splitAtFirst c (a ++ c :: b) = some (a, b) := by
  induction a with
  | nil => simp [splitAtFirst]
  | cons x t ih =>
    have hx : x ≠ c := by intro h; exact ha (by simp [h])
    have ih' := ih (fun h => ha (by simp [h]))
    simp only [List.append_eq] at ih'
    simp [splitAtFirst, hx, ih']

theorem splitAtFirst_none (c : Char) (a : List Char) (ha : c ∉ a) :
    splitAtFirst c a = none := by
  induction a with
  | nil => rfl
  | cons x t ih =>
    have hx : x ≠ c := by intro h; exact ha (by simp [h])
    have ih' := ih (fun h => ha (by simp [h]))
    simp [splitAtFirst, hx, ih']

theorem oneAt_structured (d1 d2 d3 d4 d5 v : List Char)
    (h : TagParts d1 d2 d3 d4 d5) (hv : '(' ∉ v) :
    oneAt (mkTag d1 d2 d3 d4 d5 ++ '(' :: (v ++ [')'])) =
      some (mkTag d1 d2 d3 d4 d5, v) := by
  have hk := keyParse_structured d1 d2 d3 d4 d5 ('(' :: (v ++ [')'])) h
    (by intro c hc; cases hc; decide)
  simp only [oneAt, hk]
  have h1 : (v ++ [')']).getLast? = some ')' := by simp
  have h2 : (v ++ [')']).dropLast = v := by simp
  simp [h1, h2, hv]

theorem twoAt_structured (d1 d2 d3 d4 d5 v1 v2 : List Char)
    (h : TagParts d1 d2 d3 d4 d5) (hv1 : '(' ∉ v1) (hv2 : '(' ∉ v2) :
    twoAt (mkTag d1 d2 d3 d4 d5 ++ '(' :: (v1 ++ ')' :: '(' :: (v2 ++ [')']))) =
      some (mkTag d1 d2 d3 d4 d5, v1, v2) := by
  have hk := keyParse_structured d1 d2 d3 d4 d5 ('(' :: (v1 ++ ')' :: '(' :: (v2 ++ [')']))) h
    (by intro c hc; cases hc; decide)
  simp only [twoAt, hk]
  have hsp : splitAtFirst '(' (v1 ++ ')' :: '(' :: (v2 ++ [')'])) =
      some (v1 ++ [')'], v2 ++ [')']) := by
    have : v1 ++ ')' :: '(' :: (v2 ++ [')']) = (v1 ++ [')']) ++ '(' :: (v2 ++ [')']) := by simp
    rw [this]
    exact splitAtFirst_append '(' _ _ (by simp [hv1])
  simp only [hsp]
  simp [hv2]

theorem moreAt_structured (d1 d2 d3 d4 d5 v v2 g : List Char)
    (h : TagParts d1 d2 d3 d4 d5) (hv : '(' ∉ v) (hv2 : '(' ∉ v2) :
    moreAt (mkTag d1 d2 d3 d4 d5 ++
        '(' :: (v ++ ')' :: '(' :: (v2 ++ '(' :: (g ++ [')'])))) =
      some (mkTag d1 d2 d3 d4 d5, v, v2) := by
  have hk := keyParse_structured d1 d2 d3 d4 d5
    ('(' :: (v ++ ')' :: '(' :: (v2 ++ '(' :: (g ++ [')'])))) h
    (by intro c hc; cases hc; decide)
  simp only [moreAt, hk]
  have hsp : splitAtFirst '(' (v ++ ')' :: '(' :: (v2 ++ '(' :: (g ++ [')']))) =
      some (v ++ [')'], v2 ++ '(' :: (g ++ [')'])) := by
    have : v ++ ')' :: '(' :: (v2 ++ '(' :: (g ++ [')'])) =
        (v ++ [')']) ++ '(' :: (v2 ++ '(' :: (g ++ [')'])) := by simp
    rw [this]
    exact splitAtFirst_append '(' _ _ (by simp [hv])
  simp only [hsp]
  have hsp2 : splitAtFirst '(' (v2 ++ '(' :: (g ++ [')'])) = some (v2, g ++ [')']) :=
    splitAtFirst_append '(' _ _ hv2
  simp only [hsp2]
  simp

theorem splitAtFirst_eq (c : Char) :
    ∀ l a b, splitAtFirst c l = some (a, b) → l = a ++ c :: b
  | [], a, b => by simp [splitAtFirst]
  | x :: t, a, b => by
    simp only [splitAtFirst]
    by_cases hx : x = c
    · simp [hx]
      intro h1 h2
      simp [← h1, ← h2]
    · simp [hx]
      intro p q hpq
      have := splitAtFirst_eq c t p b q
      subst this
      rw [← hpq]
      simp

theorem keyParse_append (cs k rest : List Char) (h : keyParse cs = some (k, rest)) :
    cs = k ++ rest ∧ '(' ∉ k := by
  unfold keyParse at h
  dsimp only [] at h
  split at h
  · exact absurd h (by simp)
  next h1 =>
  split at h
  next r1 e1 =>
    split at h
    · exact absurd h (by simp)
    next h2 =>
    split at h
    next r2 e2 =>
      split at h
      · exact absurd h (by simp)
      next h3 =>
      split at h
      next r3 e3 =>
        split at h
        · exact absurd h (by simp)
        next h4 =>
        split at h
        next r4 e4 =>
          split at h
          · exact absurd h (by simp)
          next h5 =>
          simp only [Option.some.injEq, Prod.mk.injEq] at h
          obtain ⟨hk, hrest⟩ := h
          constructor
          · rw [← hk, ← hrest]
            have s0 := takeDigits_split cs
            have s1 := takeDigits_split r1
            have s2 := takeDigits_split r2
            have s3 := takeDigits_split r3
            have s4 := takeDigits_split r4
            rw [e1] at s0
            rw [e2] at s1
            rw [e3] at s2
            rw [e4] at s3
            obtain ⟨A, hA⟩ : ∃ A, (takeDigits cs).1 = A := ⟨_, rfl⟩
            obtain ⟨B, hB⟩ : ∃ B, (takeDigits r1).1 = B := ⟨_, rfl⟩
            obtain ⟨C, hC⟩ : ∃ C, (takeDigits r2).1 = C := ⟨_, rfl⟩
            obtain ⟨D, hD⟩ : ∃ D, (takeDigits r3).1 = D := ⟨_, rfl⟩
            obtain ⟨E, hE⟩ : ∃ E, (takeDigits r4).1 = E := ⟨_, rfl⟩
            obtain ⟨R, hR⟩ : ∃ R, (takeDigits r4).2 = R := ⟨_, rfl⟩
            rw [hA] at s0 ⊢
            rw [hB] at s1 ⊢
            rw [hC] at s2 ⊢
            rw [hD] at s3 ⊢
            rw [hE] at s4 ⊢
            rw [hR] at s4 ⊢
            rw [s0, s1, s2, s3, s4]
            simp
          · rw [← hk]
            intro hmem
            have d0 := takeDigits_digits cs
            have dd1 := takeDigits_digits r1
            have dd2 := takeDigits_digits r2
            have dd3 := takeDigits_digits r3
            have dd4 := takeDigits_digits r4
            simp only [List.mem_append, List.mem_cons] at hmem
            rcases hmem with (((h | h | h) | h | h) | h | h) | h | h <;>
              first
              | exact absurd h (by decide)
              | exact absurd (d0 '(' h) (by decide)
              | exact absurd (dd1 '(' h) (by decide)
              | exact absurd (dd2 '(' h) (by decide)
              | exact absurd (dd3 '(' h) (by decide)
              | exact absurd (dd4 '(' h) (by decide)
        · exact absurd h (by simp)
      · exact absurd h (by simp)
    · exact absurd h (by simp)
  · exact absurd h (by simp)

theorem moreAt_count (cs : List Char) (x : List Char × List Char × List Char)
    (h : moreAt cs = some x) : 3 ≤ cs.count '(' := by
  unfold moreAt at h
  split at h
  · exact absurd h (by simp)
  next k rest hk =>
  split at h
  next r =>
    split at h
    · exact absurd h (by simp)
    next pre post hsp =>
    split at h
    next hpre =>
      split at h
      · exact absurd h (by simp)
      next pre2 post2 hsp2 =>
      have e1 := (keyParse_append cs k ('(' :: r) hk).1
      have e2 := splitAtFirst_eq '(' r pre post hsp
      have e3 := splitAtFirst_eq '(' post pre2 post2 hsp2
      rw [e1, e2, e3]
      simp [List.count_append, List.count_cons]
      omega
    · exact absurd h (by simp)
  · exact absurd h (by simp)

theorem twoAt_count (cs : List Char) (x : List Char × List Char × List Char)
    (h : twoAt cs = some x) : 2 ≤ cs.count '(' := by
  unfold twoAt at h
  split at h
  · exact absurd h (by simp)
  next k rest hk =>
  split at h
  next r =>
    split at h
    · exact absurd h (by simp)
    next pre post hsp =>
    have e1 := (keyParse_append cs k ('(' :: r) hk).1
    have e2 := splitAtFirst_eq '(' r pre post hsp
    rw [e1, e2]
    simp [List.count_append, List.count_cons]
    omega
  · exact absurd h (by simp)

theorem searchMore_eq_none : ∀ cs : List Char, cs.count '(' < 3 → searchMore cs = none
  | [] => fun _ => rfl
  | c :: t => fun h => by
    have ht : t.count '(' < 3 := by
      have : t.count '(' ≤ (c :: t).count '(' := by
        simp [List.count_cons]
      omega
    cases hm : moreAt (c :: t) with
    | some x => exact absurd (moreAt_count _ x hm) (by omega)
    | none => simp [searchMore, hm, searchMore_eq_none t ht]

theorem searchTwo_eq_none : ∀ cs : List Char, cs.count '(' < 2 → searchTwo cs = none
  | [] => fun _ => rfl
  | c :: t => fun h => by
    have ht : t.count '(' < 2 := by
      have : t.count '(' ≤ (c :: t).count '(' := by
        simp [List.count_cons]
      omega
    cases hm : twoAt (c :: t) with
    | some x => exact absurd (twoAt_count _ x hm) (by omega)
    | none => simp [searchTwo, hm, searchTwo_eq_none t ht]

theorem oneAt_nil : oneAt [] = none := by
  simp [oneAt, keyParse, takeDigits]

theorem twoAt_nil : twoAt [] = none := by
  simp [twoAt, keyParse, takeDigits]

theorem moreAt_nil : moreAt [] = none := by
  simp [moreAt, keyParse, takeDigits]

theorem searchOne_of_head (cs : List Char) (x : List Char × List Char)
    (h : oneAt cs = some x) : searchOne cs = some x := by
  cases cs with
  | nil => rw [oneAt_nil] at h; exact absurd h (by simp)
  | cons c t => simp [searchOne, h]

theorem searchTwo_of_head (cs : List Char) (x : List Char × List Char × List Char)
    (h : twoAt cs = some x) : searchTwo cs = some x := by
  cases cs with
  | nil => rw [twoAt_nil] at h; exact absurd h (by simp)
  | cons c t => simp [searchTwo, h]

theorem searchMore_of_head (cs : List Char) (x : List Char × List Char × List Char)
    (h : moreAt cs = some x) : searchMore cs = some x := by
  cases cs with
  | nil => rw [moreAt_nil] at h; exact absurd h (by simp)
  | cons c t => simp [searchMore, h]

theorem mkTag_count (d1 d2 d3 d4 d5 : List Char) (h : TagParts d1 d2 d3 d4 d5) :
    (mkTag d1 d2 d3 d4 d5).count '(' = 0 := by
  obtain ⟨n1, n2, n3, n4, n5, g1, g2, g3, g4, g5⟩ := h
  rw [List.count_eq_zero]
  intro hmem
  simp only [mkTag, List.mem_append, List.mem_cons] at hmem
  rcases hmem with (((h | h | h) | h | h) | h | h) | h | h <;>
    first
    | exact absurd h (by decide)
    | exact absurd (g1 '(' h) (by decide)
    | exact absurd (g2 '(' h) (by decide)
    | exact absurd (g3 '(' h) (by decide)
    | exact absurd (g4 '(' h) (by decide)
    | exact absurd (g5 '(' h) (by decide)

theorem structured_head (d1 d2 d3 d4 d5 X : List Char) (h : TagParts d1 d2 d3 d4 d5) :
    ∃ c t, mkTag d1 d2 d3 d4 d5 ++ X = c :: t ∧ isDig c = true := by
  obtain ⟨n1, _, _, _, _, g1, _⟩ := h
  cases hd : d1 with
  | nil => exact absurd hd n1
  | cons c t =>
    refine ⟨c, t ++ '-' :: d2 ++ ':' :: d3 ++ '.' :: d4 ++ '.' :: d5 ++ X, ?_, ?_⟩
    · simp [mkTag, hd]
    · exact g1 c (by simp [hd])

theorem structured_not_footer (d1 d2 d3 d4 d5 X : List Char) (h : TagParts d1 d2 d3 d4 d5) :
    isFooter (mkTag d1 d2 d3 d4 d5 ++ X) = false := by
  obtain ⟨c, t, he, hc⟩ := structured_head d1 d2 d3 d4 d5 X h
  rw [he]
  have : c ≠ '!' := by
    intro hbang
    rw [hbang] at hc
    exact absurd hc (by decide)
  simp [isFooter, this]

theorem structured_ne_nil (d1 d2 d3 d4 d5 X : List Char) (h : TagParts d1 d2 d3 d4 d5) :
    (mkTag d1 d2 d3 d4 d5 ++ X).length ≠ 0 := by
  obtain ⟨c, t, he, _⟩ := structured_head d1 d2 d3 d4 d5 X h
  rw [he]
  simp

/-- In a non-skipping, in-datagram state, a nonempty non-footer line goes to
the field parser. -/
theorem stepLine_data (cfg : Config) (s : SLState) (line : List Char) (now : Int)
    (h0 : s.skipRemaining = 0) (h1 : s.firstLineRead = true)
    (hne : line.length ≠ 0) (hnf : isFooter line = false) :
    stepLine cfg s line now =
      (parseDataLine s.telegram line).map (fun tg => ({ s with telegram := tg }, none)) := by
  simp [stepLine, h0, h1, hne, hnf]

theorem count_oneLine (d1 d2 d3 d4 d5 v : List Char) (h : TagParts d1 d2 d3 d4 d5)
    (hv : '(' ∉ v) :
    (mkTag d1 d2 d3 d4 d5 ++ '(' :: (v ++ [')'])).count '(' = 1 := by
  have h1 := mkTag_count d1 d2 d3 d4 d5 h
  have h2 : v.count '(' = 0 := List.count_eq_zero.mpr hv
  simp [List.count_append, List.count_cons, h1, h2]

theorem count_twoLine (d1 d2 d3 d4 d5 v1 v2 : List Char) (h : TagParts d1 d2 d3 d4 d5)
    (hv1 : '(' ∉ v1) (hv2 : '(' ∉ v2) :
    (mkTag d1 d2 d3 d4 d5 ++ '(' :: (v1 ++ ')' :: '(' :: (v2 ++ [')']))).count '(' = 2 := by
  have h1 := mkTag_count d1 d2 d3 d4 d5 h
  have h2 : v1.count '(' = 0 := List.count_eq_zero.mpr hv1
  have h3 : v2.count '(' = 0 := List.count_eq_zero.mpr hv2
  simp [List.count_append, List.count_cons, h1, h2, h3]

/-- Dispatch result on a well-formed single-value line `tag(v)`: the
one-value pattern fires with key `tag` and value `v`. -/
theorem parseDataLine_oneValue (tg : List (List Char × FieldValue))
    (d1 d2 d3 d4 d5 v : List Char) (h : TagParts d1 d2 d3 d4 d5) (hv : '(' ∉ v) :
    parseDataLine tg (mkTag d1 d2 d3 d4 d5 ++ '(' :: (v ++ [')'])) =
      match parse_p1_value v with
      | some val => some (upsert tg (mkTag d1 d2 d3 d4 d5) val)
      | none => none := by
  have hm := searchMore_eq_none _ (by rw [count_oneLine d1 d2 d3 d4 d5 v h hv]; omega)
  have ht := searchTwo_eq_none _ (by rw [count_oneLine d1 d2 d3 d4 d5 v h hv]; omega)
  have ho := searchOne_of_head _ _ (oneAt_structured d1 d2 d3 d4 d5 v h hv)
  simp only [parseDataLine, hm, ht, ho]

/-- Dispatch result on a well-formed two-value line `tag(v1)(v2)`: the
two-value pattern fires with key `tag` and values `v1`, `v2`. -/
theorem parseDataLine_twoValues (tg : List (List Char × FieldValue))
    (d1 d2 d3 d4 d5 v1 v2 : List Char) (h : TagParts d1 d2 d3 d4 d5)
    (hv1 : '(' ∉ v1) (hv2 : '(' ∉ v2) :
    parseDataLine tg (mkTag d1 d2 d3 d4 d5 ++ '(' :: (v1 ++ ')' :: '(' :: (v2 ++ [')']))) =
      match parse_p1_value v1, parse_p1_value v2 with
      | some a, some b =>
        some (upsert (upsert tg (mkTag d1 d2 d3 d4 d5 ++ ".A".toList) a)
          (mkTag d1 d2 d3 d4 d5 ++ ".B".toList) b)
      | _, _ => none := by
  have hm := searchMore_eq_none _ (by rw [count_twoLine d1 d2 d3 d4 d5 v1 v2 h hv1 hv2]; omega)
  have ht := searchTwo_of_head _ _ (twoAt_structured d1 d2 d3 d4 d5 v1 v2 h hv1 hv2)
  simp only [parseDataLine, hm, ht]

/-- Dispatch result on a list-style line `tag(v)(v2(g)`...`)`: the
more-than-two-values pattern fires; both `v` and `v2` are unit-converted
but only `tag ↦ v` is stored. -/
theorem parseDataLine_moreValues (tg : List (List Char × FieldValue))
    (d1 d2 d3 d4 d5 v v2 g : List Char) (h : TagParts d1 d2 d3 d4 d5)
    (hv : '(' ∉ v) (hv2 : '(' ∉ v2) :
    parseDataLine tg
        (mkTag d1 d2 d3 d4 d5 ++ '(' :: (v ++ ')' :: '(' :: (v2 ++ '(' :: (g ++ [')'])))) =
      match parse_p1_value v, parse_p1_value v2 with
      | some val, some _ => some (upsert tg (mkTag d1 d2 d3 d4 d5) val)
      | _, _ => none := by
  have hm := searchMore_of_head _ _ (moreAt_structured d1 d2 d3 d4 d5 v v2 g h hv hv2)
  simp only [parseDataLine, hm]

/-- C4.  (i) For every well-formed two-value data line `tag(v1)(v2)`
processed while a datagram is in progress, exactly the two fields `tag.A`
and `tag.B` are stored, with `v1` and `v2` independently unit-converted.
(ii) For every list-style line `tag(v)(v2(g)...)` — whose second
parenthesized group contains a nested parenthesized sub-group — only the
tag and the first value are stored; the sub-group contents are discarded
(the second value is still unit-converted, then dropped). -/
theorem C4_two_value_and_list_style :
    (∀ (cfg : Config) (s : SLState) (now : Int) (d1 d2 d3 d4 d5 v1 v2 : List Char)
      (a b : FieldValue),
      s.skipRemaining = 0 → s.firstLineRead = true → TagParts d1 d2 d3 d4 d5 →
      '(' ∉ v1 → '(' ∉ v2 →
      parse_p1_value v1 = some a → parse_p1_value v2 = some b →
      stepLine cfg s (mkTag d1 d2 d3 d4 d5 ++ '(' :: (v1 ++ ')' :: '(' :: (v2 ++ [')']))) now =
        some ({ s with telegram := (upsert
          (upsert s.telegram (mkTag d1 d2 d3 d4 d5 ++ ".A".toList) a)
          (mkTag d1 d2 d3 d4 d5 ++ ".B".toList) b) }, none)) ∧
    (∀ (cfg : Config) (s : SLState) (now : Int) (d1 d2 d3 d4 d5 v v2 g : List Char)
      (a b : FieldValue),
      s.skipRemaining = 0 → s.firstLineRead = true → TagParts d1 d2 d3 d4 d5 →
      '(' ∉ v → '(' ∉ v2 →
      parse_p1_value v = some a → parse_p1_value v2 = some b →
      stepLine cfg s
          (mkTag d1 d2 d3 d4 d5 ++ '(' :: (v ++ ')' :: '(' :: (v2 ++ '(' :: (g ++ [')'])))) now =
        some ({ s with telegram := upsert s.telegram (mkTag d1 d2 d3 d4 d5) a }, none)) := by
  constructor
  · intro cfg s now d1 d2 d3 d4 d5 v1 v2 a b h0 h1 htag hv1 hv2 hp1 hp2
    rw [stepLine_data cfg s _ now h0 h1 (structured_ne_nil d1 d2 d3 d4 d5 _ htag)
      (structured_not_footer d1 d2 d3 d4 d5 _ htag)]
    rw [parseDataLine_twoValues s.telegram d1 d2 d3 d4 d5 v1 v2 htag hv1 hv2]
    rw [hp1, hp2]
    rfl
  · intro cfg s now d1 d2 d3 d4 d5 v v2 g a b h0 h1 htag hv hv2 hp1 hp2
    rw [stepLine_data cfg s _ now h0 h1 (structured_ne_nil d1 d2 d3 d4 d5 _ htag)
      (structured_not_footer d1 d2 d3 d4 d5 _ htag)]
    rw [parseDataLine_moreValues s.telegram d1 d2 d3 d4 d5 v v2 g htag hv hv2]
    rw [hp1, hp2]
    rfl

/-- C4, witness: the concrete two-value line `1-2:3.4.5(x)(y)` stores
`1-2:3.4.5.A = "x"` and `1-2:3.4.5.B = "y"`, and the concrete list-style
line `0-1:98.1.0(2)(1-0:1.8.0(z)` stores only `0-1:98.1.0 = 2`. -/
theorem C4_witness :
    stepLine cfgDefault sInDatagram
        (mkTag ['1'] ['2'] ['3'] ['4'] ['5'] ++
          '(' :: ("x".toList ++ ')' :: '(' :: ("y".toList ++ [')']))) 1728000012000000 =
      some ({ sInDatagram with telegram := (upsert
        (upsert sInDatagram.telegram (mkTag ['1'] ['2'] ['3'] ['4'] ['5'] ++ ".A".toList)
          (FieldValue.s "x".toList))
        (mkTag ['1'] ['2'] ['3'] ['4'] ['5'] ++ ".B".toList) (FieldValue.s "y".toList)) },
        none) ∧
    stepLine cfgDefault sInDatagram
        (mkTag ['0'] ['1'] ['9', '8'] ['1'] ['0'] ++
          '(' :: ("2".toList ++ ')' :: '(' :: ("1-0:1.8.0".toList ++ '(' :: ("z".toList ++ [')'])))) 1728000012000000 =
      some ({ sInDatagram with telegram := (upsert
        sInDatagram.telegram (mkTag ['0'] ['1'] ['9', '8'] ['1'] ['0'])
        (FieldValue.s "2".toList)) }, none) := by
  have h0 : sInDatagram.skipRemaining = 0 := by decide
  have h1 : sInDatagram.firstLineRead = true := by decide
  constructor
  · exact C4_two_value_and_list_style.1 cfgDefault sInDatagram 1728000012000000
      ['1'] ['2'] ['3'] ['4'] ['5'] "x".toList "y".toList
      (FieldValue.s "x".toList) (FieldValue.s "y".toList)
      h0 h1 (by decide) (by decide) (by decide) (by decide) (by decide)
  · exact C4_two_value_and_list_style.2 cfgDefault sInDatagram 1728000012000000
      ['0'] ['1'] ['9', '8'] ['1'] ['0'] "2".toList "1-0:1.8.0".toList "z".toList
      (FieldValue.s "2".toList) (FieldValue.s "1-0:1.8.0".toList)
      h0 h1 (by decide) (by decide) (by decide) (by decide) (by decide)

/-- C3, amended.  Unit conversion is keyed on substring containment of the
unit markers (not on a suffix test), checked in the order `*m3`, `*kW`,
`*V`, `*A`; the numeric part is the substring before the first `*`; values
containing none of the four markers remain the raw string.  Through the
full pipeline, a well-formed single-value data line `tag(v)` stores the
converted value under `tag`; in particular `1-0:1.7.0(00.424*kW)` yields
field `1-0:1.7.0` = integer 424. -/
theorem C3_amended :
    (∀ (cfg : Config) (s : SLState) (now : Int) (d1 d2 d3 d4 d5 v : List Char)
      (val : FieldValue),
      s.skipRemaining = 0 → s.firstLineRead = true → TagParts d1 d2 d3 d4 d5 → '(' ∉ v →
      parse_p1_value v = some val →
      stepLine cfg s (mkTag d1 d2 d3 d4 d5 ++ '(' :: (v ++ [')'])) now =
        some ({ s with telegram := upsert s.telegram (mkTag d1 d2 d3 d4 d5) val }, none)) ∧
    (∀ v : List Char, hasSubstr "*m3".toList v = true →
      parse_p1_value v =
        (pyFloat (beforeStar v)).map (fun d => FieldValue.i (scale1000Trunc d))) ∧
    (∀ v : List Char, hasSubstr "*m3".toList v = false → hasSubstr "*kW".toList v = true →
      parse_p1_value v =
        (pyFloat (beforeStar v)).map (fun d => FieldValue.i (scale1000Trunc d))) ∧
    (∀ v : List Char, hasSubstr "*m3".toList v = false → hasSubstr "*kW".toList v = false →
      hasSubstr "*V".toList v = true →
      parse_p1_value v = (pyFloat (beforeStar v)).map FieldValue.f) ∧
    (∀ v : List Char, hasSubstr "*m3".toList v = false → hasSubstr "*kW".toList v = false →
      hasSubstr "*V".toList v = false → hasSubstr "*A".toList v = true →
      parse_p1_value v = (pyIntOfString (beforeStar v)).map FieldValue.i) ∧
    (∀ v : List Char, hasSubstr "*m3".toList v = false → hasSubstr "*kW".toList v = false →
      hasSubstr "*V".toList v = false → hasSubstr "*A".toList v = false →
      parse_p1_value v = some (FieldValue.s v)) ∧
    stepLine cfgDefault sInDatagram
        (mkTag ['1'] ['0'] ['1'] ['7'] ['0'] ++ '(' :: ("00.424*kW".toList ++ [')']))
        1728000012000000 =
      some ({ sInDatagram with telegram := (upsert
        sInDatagram.telegram (mkTag ['1'] ['0'] ['1'] ['7'] ['0'])
        (FieldValue.i 424)) }, none) := by
  refine ⟨?_, ?_, ?_, ?_, ?_, ?_, ?_⟩
  · intro cfg s now d1 d2 d3 d4 d5 v val h0 h1 htag hv hp
    rw [stepLine_data cfg s _ now h0 h1 (structured_ne_nil d1 d2 d3 d4 d5 _ htag)
      (structured_not_footer d1 d2 d3 d4 d5 _ htag)]
    rw [parseDataLine_oneValue s.telegram d1 d2 d3 d4 d5 v htag hv]
    rw [hp]
    rfl
  · intro v h1
    have h1' : hasSubstr ['*', 'm', '3'] v = true := h1
    simp [parse_p1_value, h1']
  · intro v h1 h2
    have h1' : hasSubstr ['*', 'm', '3'] v = false := h1
    have h2' : hasSubstr ['*', 'k', 'W'] v = true := h2
    simp [parse_p1_value, h1', h2']
  · intro v h1 h2 h3
    have h1' : hasSubstr ['*', 'm', '3'] v = false := h1
    have h2' : hasSubstr ['*', 'k', 'W'] v = false := h2
    have h3' : hasSubstr ['*', 'V'] v = true := h3
    simp [parse_p1_value, h1', h2', h3']
  · intro v h1 h2 h3 h4
    have h1' : hasSubstr ['*', 'm', '3'] v = false := h1
    have h2' : hasSubstr ['*', 'k', 'W'] v = false := h2
    have h3' : hasSubstr ['*', 'V'] v = false := h3
    have h4' : hasSubstr ['*', 'A'] v = true := h4
    simp [parse_p1_value, h1', h2', h3', h4']
  · intro v h1 h2 h3 h4
    have h1' : hasSubstr ['*', 'm', '3'] v = false := h1
    have h2' : hasSubstr ['*', 'k', 'W'] v = false := h2
    have h3' : hasSubstr ['*', 'V'] v = false := h3
    have h4' : hasSubstr ['*', 'A'] v = false := h4
    simp [parse_p1_value, h1', h2', h3', h4']
  · decide

/-- C3, amended, witness: the single-value pipeline theorem applied to the
concrete line `1-0:1.7.0(00.424*kW)` in a concrete in-datagram state. -/
theorem C3_amended_witness :
    stepLine cfgDefault sInDatagram
        (mkTag ['1'] ['0'] ['1'] ['7'] ['0'] ++ '(' :: ("00.424*kW".toList ++ [')']))
        1728000012000000 =
      some ({ sInDatagram with telegram := (upsert
        sInDatagram.telegram (mkTag ['1'] ['0'] ['1'] ['7'] ['0'])
        (FieldValue.i 424)) }, none) := by
  have h0 : sInDatagram.skipRemaining = 0 := by decide
  have h1 : sInDatagram.firstLineRead = true := by decide
  exact C3_amended.1 cfgDefault sInDatagram 1728000012000000
    ['1'] ['0'] ['1'] ['7'] ['0'] "00.424*kW".toList (FieldValue.i 424)
    h0 h1 (by decide) (by decide) (by decide)

/-- C7, amended.  During a datagram, a nonempty non-footer data line never
aborts the loop PROVIDED every extracted value parses: a line matching
none of the three patterns is ignored with the state unchanged, and a line
matching a pattern whose extracted values all unit-convert without error
stores its field(s).  (The unamended claim fails: a matching line whose
value makes `float()`/`int()` raise does abort, see the counterexample.) -/
theorem C7_amended :
    (∀ (cfg : Config) (s : SLState) (line : List Char) (now : Int),
      s.skipRemaining = 0 → s.firstLineRead = true → line.length ≠ 0 → isFooter line = false →
      searchMore line = none → searchTwo line = none → searchOne line = none →
      stepLine cfg s line now = some (s, none)) ∧
    (∀ (cfg : Config) (s : SLState) (line : List Char) (now : Int) (k v : List Char)
      (val : FieldValue),
      s.skipRemaining = 0 → s.firstLineRead = true → line.length ≠ 0 → isFooter line = false →
      searchMore line = none → searchTwo line = none → searchOne line = some (k, v) →
      parse_p1_value v = some val →
      stepLine cfg s line now = some ({ s with telegram := upsert s.telegram k val }, none)) ∧
    (∀ (cfg : Config) (s : SLState) (line : List Char) (now : Int) (k v1 v2 : List Char)
      (a b : FieldValue),
      s.skipRemaining = 0 → s.firstLineRead = true → line.length ≠ 0 → isFooter line = false →
      searchMore line = none → searchTwo line = some (k, v1, v2) →
      parse_p1_value v1 = some a → parse_p1_value v2 = some b →
      stepLine cfg s line now =
        some ({ s with telegram := (upsert (upsert s.telegram (k ++ ".A".toList) a)
          (k ++ ".B".toList) b) }, none)) ∧
    (∀ (cfg : Config) (s : SLState) (line : List Char) (now : Int) (k v v2 : List Char)
      (a b : FieldValue),
      s.skipRemaining = 0 → s.firstLineRead = true → line.length ≠ 0 → isFooter line = false →
      searchMore line = some (k, v, v2) →
      parse_p1_value v = some a → parse_p1_value v2 = some b →
      stepLine cfg s line now = some ({ s with telegram := upsert s.telegram k a }, none)) := by
  refine ⟨?_, ?_, ?_, ?_⟩
  · intro cfg s line now h0 h1 hne hnf e1 e2 e3
    rw [stepLine_data cfg s line now h0 h1 hne hnf]
    simp [parseDataLine, e1, e2, e3]
  · intro cfg s line now k v val h0 h1 hne hnf e1 e2 e3 hp
    rw [stepLine_data cfg s line now h0 h1 hne hnf]
    simp [parseDataLine, e1, e2, e3, hp]
  · intro cfg s line now k v1 v2 a b h0 h1 hne hnf e1 e2 hp1 hp2
    rw [stepLine_data cfg s line now h0 h1 hne hnf]
    simp [parseDataLine, e1, e2, hp1, hp2]
  · intro cfg s line now k v v2 a b h0 h1 hne hnf e1 hp1 hp2
    rw [stepLine_data cfg s line now h0 h1 hne hnf]
    simp [parseDataLine, e1, hp1, hp2]

/-- C7, amended, witness: the unmatched line `BANANA` is ignored with the
state unchanged, and the matched line `1-0:1.7.0(00.424*kW)` stores its
field, both without error. -/
theorem C7_amended_witness :
    stepLine cfgDefault sInDatagram ("BANANA".toList) 1728000012000000 =
      some (sInDatagram, none) := by
  have h0 : sInDatagram.skipRemaining = 0 := by decide
  have h1 : sInDatagram.firstLineRead = true := by decide
  exact C7_amended.1 cfgDefault sInDatagram ("BANANA".toList) 1728000012000000
    h0 h1 (by decide) (by decide) (by decide) (by decide) (by decide)

theorem lookupField_upsert_ne (tg : List (List Char × FieldValue)) (k k' : List Char)
    (v : FieldValue) (h : k ≠ k') :
    lookupField (upsert tg k v) k' = lookupField tg k' := by
  induction tg with
  | nil => simp [upsert, lookupField, h]
  | cons p r ih =>
    by_cases hk : p.1 = k
    · simp only [upsert, hk, if_pos]
      have : ¬(k = k') := h
      simp [lookupField, this, hk]
    · simp only [upsert]
      rw [if_neg (by exact fun hh => hk (by simp [hh]))]
      by_cases hk' : p.1 = k'
      · simp [lookupField, hk']
      · simp [lookupField, hk', ih]

theorem hasTag_upsert_checksum (tg : List (List Char × FieldValue)) (v : FieldValue) :
    hasTag (upsert tg ("checksum".toList) v) = hasTag tg := by
  unfold hasTag
  rw [lookupField_upsert_ne tg ("checksum".toList) tagKey v (by decide)]

/-- Finalizing a datagram whose telegram lacks the `0-0:1.0.0` tag sends
nothing, leaves the clock state unchanged, raises no error, and returns
to awaiting the next header. -/
theorem stepLine_footer_no_tag (cfg : Config) (s : SLState) (line : List Char) (now : Int)
    (h0 : s.skipRemaining = 0) (h1 : s.firstLineRead = true) (hf : isFooter line = true)
    (htag : hasTag s.telegram = false) :
    stepLine cfg s line now = some ({ s with firstLineRead := false, telegram := [] }, none) := by
  have ht : hasTag (upsert s.telegram ("checksum".toList) (FieldValue.s (line.drop 1))) = false := by
    rw [hasTag_upsert_checksum]
    exact htag
  have hne : line ≠ [] := by
    intro he
    rw [he] at hf
    exact absurd hf (by decide)
  simp at ht
  simp [stepLine, h0, h1, hf, hne, ht]

/-- C6.  A finalized datagram whose fields do not contain the tag
`0-0:1.0.0` is never published: the footer step sends nothing, leaves the
whole clock state (references, drift, window block) unchanged, raises no
error, and returns to awaiting the next header. -/
theorem C6_missing_tag_dropped (cfg : Config) (s : SLState) (line : List Char) (now : Int)
    (h0 : s.skipRemaining = 0) (h1 : s.firstLineRead = true) (hf : isFooter line = true)
    (htag : hasTag s.telegram = false) :
    stepLine cfg s line now = some ({ s with firstLineRead := false, telegram := [] }, none) :=
  stepLine_footer_no_tag cfg s line now h0 h1 hf htag

/-- C6, witness: a concrete footer arriving on a datagram with no
`0-0:1.0.0` field is dropped with the clock state untouched. -/
theorem C6_witness :
    stepLine cfgDefault sInDatagram ("!abcd".toList) 1728000013000000 =
      some ({ sInDatagram with firstLineRead := false, telegram := [] }, none) := by
  have h0 : sInDatagram.skipRemaining = 0 := by decide
  have h1 : sInDatagram.firstLineRead = true := by decide
  exact C6_missing_tag_dropped cfgDefault sInDatagram ("!abcd".toList) 1728000013000000
    h0 h1 (by decide) (by decide)

theorem runLines_append_some (cfg : Config) (s s' : SLState)
    (xs : List (List Char × Int)) (ys : List (List Char × Int))
    (h : (runLines cfg s xs).2 = some s') :
    runLines cfg s (xs ++ ys) =
      ((runLines cfg s xs).1 ++ (runLines cfg s' ys).1, (runLines cfg s' ys).2) := by
  induction xs generalizing s with
  | nil =>
    simp only [runLines] at h
    cases h
    simp [runLines]
  | cons p rest ih =>
    obtain ⟨l, t⟩ := p
    simp only [runLines] at h ⊢
    cases hst : stepLine cfg s l t with
    | none => rw [hst] at h; exact absurd h (by simp)
    | some q =>
      obtain ⟨s1, m⟩ := q
      rw [hst] at h
      simp only [] at h
      have := ih s1 h
      simp [this]

/-- While `skip_datagram` is consuming (`skipRemaining ≠ 0`), a stretch of
non-footer lines changes nothing and publishes nothing. -/
theorem runLines_skip_nonfooter (cfg : Config) (s : SLState)
    (ls : List (List Char × Int)) (h : s.skipRemaining ≠ 0)
    (hl : ∀ p ∈ ls, isFooter (p : List Char × Int).1 = false) :
    runLines cfg s ls = ([], some s) := by
  induction ls with
  | nil => rfl
  | cons p rest ih =>
    obtain ⟨l, t⟩ := p
    have hf : isFooter l = false := hl (l, t) (by simp)
    have hstep : stepLine cfg s l t = some (s, none) := by
      simp [stepLine, h, hf]
    simp only [runLines, hstep]
    rw [ih (fun q hq => hl q (by simp [hq]))]
    rfl

/-- A footer while skipping decrements the count. -/
theorem stepLine_skip_footer (cfg : Config) (s : SLState) (l : List Char) (t : Int)
    (h : s.skipRemaining ≠ 0) (hf : isFooter l = true) :
    stepLine cfg s l t = some ({ s with skipRemaining := s.skipRemaining - 1 }, none) := by
  simp [stepLine, h, hf]

/-- C8.  A nonempty line that does not start with `/` while awaiting a
header forces resynchronization: the framer resets the datagram under
construction, consumes lines until exactly two footer lines have passed
(after only one footer it is still consuming), emits nothing throughout,
and is afterwards again awaiting a header with everything else (clock
state, counters) unchanged. -/
theorem C8_forced_resync (cfg : Config) (s : SLState) (viol f1 f2 : List Char)
    (t0 t1 t2 : Int) (pre1 pre2 : List (List Char × Int))
    (h0 : s.skipRemaining = 0) (h1 : s.firstLineRead = false)
    (hv1 : viol.length ≠ 0) (hv2 : viol.head? ≠ some '/')
    (hp1 : ∀ p ∈ pre1, isFooter (p : List Char × Int).1 = false)
    (hp2 : ∀ p ∈ pre2, isFooter (p : List Char × Int).1 = false)
    (hf1 : isFooter f1 = true) (hf2 : isFooter f2 = true) :
    runLines cfg s ((viol, t0) :: (pre1 ++ (f1, t1) :: (pre2 ++ [(f2, t2)]))) =
      ([], some { s with skipRemaining := 0, firstLineRead := false, telegram := [] }) ∧
    (runLines cfg s ((viol, t0) :: (pre1 ++ [(f1, t1)]))).2 =
      some { s with skipRemaining := 1, firstLineRead := false, telegram := [] } := by
  have hstep : stepLine cfg s viol t0 =
      some ({ s with skipRemaining := 2, firstLineRead := false, telegram := [] }, none) := by
    simp [stepLine, h0, h1, hv1, hv2]
  have hA : runLines cfg { s with skipRemaining := 2, firstLineRead := false, telegram := [] }
      pre1 = ([], some { s with skipRemaining := 2, firstLineRead := false, telegram := [] }) :=
    runLines_skip_nonfooter cfg _ pre1 (by simp) hp1
  have hB : stepLine cfg { s with skipRemaining := 2, firstLineRead := false, telegram := [] }
      f1 t1 = some ({ s with skipRemaining := 1, firstLineRead := false, telegram := [] }, none) := by
    rw [stepLine_skip_footer cfg _ f1 t1 (by simp) hf1]
    rfl
  have hC : runLines cfg { s with skipRemaining := 1, firstLineRead := false, telegram := [] }
      pre2 = ([], some { s with skipRemaining := 1, firstLineRead := false, telegram := [] }) :=
    runLines_skip_nonfooter cfg _ pre2 (by simp) hp2
  have hD : stepLine cfg { s with skipRemaining := 1, firstLineRead := false, telegram := [] }
      f2 t2 = some ({ s with skipRemaining := 0, firstLineRead := false, telegram := [] }, none) := by
    rw [stepLine_skip_footer cfg _ f2 t2 (by simp) hf2]
    rfl
  constructor
  · simp only [runLines, hstep]
    rw [runLines_append_some cfg _ _ pre1 ((f1, t1) :: (pre2 ++ [(f2, t2)])) (by rw [hA])]
    rw [hA]
    simp only [runLines, hB]
    rw [runLines_append_some cfg _ _ pre2 [(f2, t2)] (by rw [hC])]
    rw [hC]
    simp [runLines, hD]
  · simp only [runLines, hstep]
    rw [runLines_append_some cfg _ _ pre1 [(f1, t1)] (by rw [hA])]
    rw [hA]
    simp [runLines, hB]

/-- C8, witness: the concrete garbage line `GARBAGE` while awaiting a
header, followed by a data line, a footer, another data line and a second
footer, is consumed without publishing, ending back in the awaiting
state. -/
theorem C8_witness :
    runLines cfgDefault sReady
        (("GARBAGE".toList, 1728000001000000) ::
          ([("1-0:1.7.0(00.424*kW)".toList, 1728000002000000)] ++
            ("!d001".toList, 1728000003000000) ::
              ([("/ISK5".toList, 1728000004000000)] ++ [("!d002".toList, 1728000005000000)]))) =
      ([], some { sReady with skipRemaining := 0, firstLineRead := false, telegram := [] }) ∧
    (runLines cfgDefault sReady
        (("GARBAGE".toList, 1728000001000000) ::
          ([("1-0:1.7.0(00.424*kW)".toList, 1728000002000000)] ++
            [("!d001".toList, 1728000003000000)]))).2 =
      some { sReady with skipRemaining := 1, firstLineRead := false, telegram := [] } := by
  have h0 : sReady.skipRemaining = 0 := by decide
  have h1 : sReady.firstLineRead = false := by decide
  exact C8_forced_resync cfgDefault sReady ("GARBAGE".toList) ("!d001".toList) ("!d002".toList)
    1728000001000000 1728000003000000 1728000005000000
    [("1-0:1.7.0(00.424*kW)".toList, 1728000002000000)]
    [("/ISK5".toList, 1728000004000000)]
    h0 h1 (by decide) (by decide) (by decide) (by decide) (by decide) (by decide)

theorem footerCount_cons (l : List Char) (t : Int) (rest : List (List Char × Int)) :
    footerCount ((l, t) :: rest) = footerCount rest + (if isFooter l then 1 else 0) := by
  simp [footerCount, List.countP_cons]

/-- A non-footer line never publishes: every branch of the loop except
footer finalization returns no message (or dies with an exception). -/
theorem stepLine_nonfooter_no_publish (cfg : Config) (s : SLState) (l : List Char) (t : Int)
    (hf : isFooter l = false) :
    stepLine cfg s l t = none ∨ ∃ s', stepLine cfg s l t = some (s', none) := by
  by_cases hsk : s.skipRemaining = 0
  · by_cases hlen : l.length = 0
    · exact Or.inr ⟨s, by simp [stepLine, hsk, hlen]⟩
    · by_cases hhd : ¬s.firstLineRead = true ∧ l.head? = some '/'
      · have hstep : stepLine cfg s l t =
            some ({ s with firstLineRead := true, telegram := upsert s.telegram ("header".toList) (FieldValue.s l), frameStartTime := t, datagramCounter := s.datagramCounter + 1 }, none) := by
          simp [stepLine, hsk, hlen, hhd]
        exact Or.inr ⟨_, hstep⟩
      · by_cases hfr : s.firstLineRead = true
        · rw [stepLine_data cfg s l t hsk hfr hlen hf]
          cases hp : parseDataLine s.telegram l with
          | none => exact Or.inl (by simp)
          | some tg => exact Or.inr ⟨{ s with telegram := tg }, by simp⟩
        · have hhd2 : ¬l.head? = some '/' := fun hc => hhd ⟨hfr, hc⟩
          have hstep : stepLine cfg s l t =
              some ({ s with skipRemaining := 2, firstLineRead := false, telegram := [] }, none) := by
            simp [stepLine, hsk, hlen, hfr, hhd2]
          exact Or.inr ⟨_, hstep⟩
  · exact Or.inr ⟨s, by simp [stepLine, hsk, hf]⟩

/-- While the stream contains no more footer lines than remain to be
skipped, nothing is ever published: footers only decrement the skip
counter, and once it reaches zero no footer line is left to trigger a
publication. -/
theorem runLines_skipcount : ∀ (ls : List (List Char × Int)) (cfg : Config) (s : SLState),
    footerCount ls ≤ s.skipRemaining →
    (runLines cfg s ls).1 = []
  | [], _, _ => fun _ => rfl
  | (l, t) :: rest, cfg, s => fun h => by
    rw [footerCount_cons] at h
    by_cases hfl : isFooter l = true
    · rw [hfl] at h
      simp at h
      have hsk : s.skipRemaining ≠ 0 := by omega
      have hstep := stepLine_skip_footer cfg s l t hsk hfl
      simp only [runLines, hstep]
      rw [runLines_skipcount rest cfg _ (by simp; omega)]
      rfl
    · have hf : isFooter l = false := Bool.not_eq_true _ |>.mp hfl
      rw [hf] at h
      simp at h
      by_cases hsk : s.skipRemaining = 0
      · rcases stepLine_nonfooter_no_publish cfg s l t hf with hnone | ⟨s', hsome⟩
        · simp [runLines, hnone]
        · simp only [runLines, hsome]
          rw [runLines_skipcount rest cfg s' (by omega)]
          rfl
      · have hstep : stepLine cfg s l t = some (s, none) := by
          simp [stepLine, hsk, hf]
        simp only [runLines, hstep]
        rw [runLines_skipcount rest cfg s h]
        rfl

/-- C9.  With the default startup skip-count of 10, (i) no datagram is ever
published while the stream has delivered at most 10 footer lines, for
every stream; and (ii) on a concrete stream of eleven well-formed
datagrams, exactly one message is published and it is the eleventh
footer-delimited datagram (checksum `zzzz`, frame number 1 — the frame
counter only starts counting after the skip). -/
theorem C9_startup_skip :
    (∀ (cfg : Config) (now0 : Int) (ls : List (List Char × Int)),
      footerCount ls ≤ 10 → (runLines cfg (initState cfg now0 10) ls).1 = []) ∧
    ((runLines cfgDefault (initState cfgDefault 1728000000000000 10) c9Stream).1.map
        (fun m => (lookupField m.telegram ("checksum".toList), m.meta.frameNumber)) =
      [(some (FieldValue.s "zzzz".toList), 1)]) := by
  constructor
  · intro cfg now0 ls h
    exact runLines_skipcount ls cfg _ (by simpa [initState] using h)
  · decide

/-- C9, witness: the universal part applied to the concrete 10-datagram
prefix of the stream (30 lines, exactly 10 footers): nothing published. -/
theorem C9_witness :
    (runLines cfgDefault (initState cfgDefault 1728000000000000 10) (c9Stream.take 30)).1 = [] :=
  C9_startup_skip.1 cfgDefault 1728000000000000 (c9Stream.take 30) (by decide)

/-- Single-step clock behavior: (i) when the current wall-time window
equals the stored block, the step changes neither the drift nor the block
nor the references; (ii) the block never decreases as long as the wall
clock has not moved to an earlier window; (iii) a published message
carries `clock-drift` equal to the post-step drift, and after any
publication the stored block equals the current window. -/
theorem stepLine_clock (cfg : Config) (s : SLState) (line : List Char) (now : Int)
    (s' : SLState) (m : Option Message)
    (h : stepLine cfg s line now = some (s', m)) :
    ((now.tdiv usec).fdiv cfg.timesyncPeriod = s.previousBlock →
      s'.deltaTime = s.deltaTime ∧ s'.previousBlock = s.previousBlock ∧
      s'.firstDatagramTime = s.firstDatagramTime ∧
      s'.firstDatagramTimestamp = s.firstDatagramTimestamp) ∧
    (s.previousBlock ≤ (now.tdiv usec).fdiv cfg.timesyncPeriod →
      s.previousBlock ≤ s'.previousBlock) ∧
    (∀ msg, m = some msg →
      msg.meta.clockDrift = s'.deltaTime ∧
      s'.previousBlock = (now.tdiv usec).fdiv cfg.timesyncPeriod) := by
  unfold stepLine at h
  split at h
  · -- skip mode
    split at h
    · cases h
      refine ⟨fun _ => by simp, fun hle => by simp, fun msg hm => by cases hm⟩
    · cases h
      refine ⟨fun _ => by simp, fun hle => by simp, fun msg hm => by cases hm⟩
  split at h
  · cases h
    refine ⟨fun _ => by simp, fun hle => by simp, fun msg hm => by cases hm⟩
  split at h
  · cases h
    refine ⟨fun _ => by simp, fun hle => by simp, fun msg hm => by cases hm⟩
  split at h
  · cases h
    refine ⟨fun _ => by simp, fun hle => by simp, fun msg hm => by cases hm⟩
  split at h
  · -- footer branch
    dsimp only [] at h
    split at h
    · exact absurd h (by simp)
    next s2 m2 hproc =>
    cases h
    split at hproc
    · -- tag present: process_datagram ran
      unfold process_datagram at hproc
      split at hproc
      · -- tag lookup failed inside: no publish, state unchanged
        cases hproc
        refine ⟨fun _ => by simp, fun hle => by simp, fun msg hm => by cases hm⟩
      next fv raw hlk =>
        dsimp only [] at hproc
        split at hproc
        · exact absurd hproc (by simp)
        next tdev hts =>
          split at hproc
          next hwin =>
            -- resync branch
            cases hproc
            refine ⟨fun heq => absurd heq hwin, fun hle => ?_, fun msg hm => ?_⟩
            · simpa using hle
            · cases hm
              exact ⟨rfl, rfl⟩
          next hwin =>
            -- reuse branch
            have hwe : (now.tdiv usec).fdiv cfg.timesyncPeriod = s.previousBlock := by
              by_contra hc
              exact hwin hc
            cases hproc
            refine ⟨fun _ => by simp, fun hle => by simp, fun msg hm => ?_⟩
            cases hm
            exact ⟨rfl, hwe.symm⟩
      · -- timestamp field was not a string: exception
        exact absurd hproc (by simp)
    · -- tag absent: dropped
      cases hproc
      refine ⟨fun _ => by simp, fun hle => by simp, fun msg hm => by cases hm⟩
  · -- data line: parser
    cases hp : parseDataLine s.telegram line with
    | none => rw [hp] at h; exact absurd h (by simp)
    | some tg =>
      rw [hp] at h
      cases h
      refine ⟨fun _ => by simp, fun hle => by simp, fun msg hm => by cases hm⟩

/-- During a run whose wall-clock instants all fall in the window already
recorded in the state, every published message carries the stored drift. -/
theorem runLines_drift_const (cfg : Config) (W : Int) :
    ∀ (ls : List (List Char × Int)) (s : SLState),
    s.previousBlock = W →
    (∀ p ∈ ls, (((p : List Char × Int).2.tdiv usec)).fdiv cfg.timesyncPeriod = W) →
    ∀ msg ∈ (runLines cfg s ls).1, msg.meta.clockDrift = s.deltaTime
  | [], s => by
    intro _ _ msg hmem
    simp [runLines] at hmem
  | (l, t) :: rest, s => by
    intro hprev hW msg hmem
    cases hst : stepLine cfg s l t with
    | none =>
      simp only [runLines, hst] at hmem
      simp at hmem
    | some q =>
      obtain ⟨s1, m⟩ := q
      simp only [runLines, hst] at hmem
      have hwt : (t.tdiv usec).fdiv cfg.timesyncPeriod = W := hW (l, t) (by simp)
      have hcl := stepLine_clock cfg s l t s1 m hst
      have hpres := hcl.1 (by rw [hwt, hprev])
      have htail := runLines_drift_const cfg W rest s1
        (by rw [hpres.2.1, hprev]) (fun p hp => hW p (by simp [hp]))
      rw [List.mem_append] at hmem
      rcases hmem with hh | hh
      · cases m with
        | none => simp at hh
        | some msg0 =>
          simp at hh
          have h3 := (hcl.2.2 msg0 rfl).1
          rw [hh, h3, hpres.1]
      · have := htail msg hh
        rw [this, hpres.1]

/-- During a run whose wall-clock instants all fall in one window, the
published messages pairwise agree on `clock-drift`. -/
theorem runLines_drift_pairwise (cfg : Config) (W : Int) :
    ∀ (ls : List (List Char × Int)) (s : SLState),
    (∀ p ∈ ls, (((p : List Char × Int).2.tdiv usec)).fdiv cfg.timesyncPeriod = W) →
    ((runLines cfg s ls).1).Pairwise (fun a b => a.meta.clockDrift = b.meta.clockDrift)
  | [], s => by
    intro _
    simp [runLines]
  | (l, t) :: rest, s => by
    intro hW
    have hWtail : ∀ p ∈ rest, (((p : List Char × Int).2.tdiv usec)).fdiv cfg.timesyncPeriod = W :=
      fun p hp => hW p (by simp [hp])
    cases hst : stepLine cfg s l t with
    | none => simp [runLines, hst]
    | some q =>
      obtain ⟨s1, m⟩ := q
      simp only [runLines, hst]
      cases m with
      | none =>
        simpa using runLines_drift_pairwise cfg W rest s1 hWtail
      | some msg0 =>
        have hwt : (t.tdiv usec).fdiv cfg.timesyncPeriod = W := hW (l, t) (by simp)
        have hcl := stepLine_clock cfg s l t s1 (some msg0) hst
        have hdrift := (hcl.2.2 msg0 rfl).1
        have hblock : s1.previousBlock = W := by
          rw [(hcl.2.2 msg0 rfl).2, hwt]
        have hconst := runLines_drift_const cfg W rest s1 hblock hWtail
        simp only [Option.toList, List.cons_append, List.nil_append]
        refine List.Pairwise.cons ?_ (runLines_drift_pairwise cfg W rest s1 hWtail)
        intro b hb
        rw [hdrift, hconst b hb]

/-- C2.  (i) Clock drift and resync block are recomputed only when the
current wall-time window `int(now) // timesyncPeriod` differs from the
stored `previous_timesync_period_block`; (ii) the stored block never
decreases while the wall clock does not move to an earlier window (in a
sequential run wall-clock instants are non-decreasing, so the block is
non-decreasing); (iii) all datagrams published during a stretch of input
whose wall-clock instants fall inside one window carry pairwise identical
`clock-drift` meta values. -/
theorem C2_resync_window (cfg : Config) :
    (∀ (s : SLState) (line : List Char) (now : Int) (s' : SLState) (m : Option Message),
      stepLine cfg s line now = some (s', m) →
      (now.tdiv usec).fdiv cfg.timesyncPeriod = s.previousBlock →
      s'.deltaTime = s.deltaTime ∧ s'.previousBlock = s.previousBlock) ∧
    (∀ (s : SLState) (line : List Char) (now : Int) (s' : SLState) (m : Option Message),
      stepLine cfg s line now = some (s', m) →
      s.previousBlock ≤ (now.tdiv usec).fdiv cfg.timesyncPeriod →
      s.previousBlock ≤ s'.previousBlock) ∧
    (∀ (W : Int) (ls : List (List Char × Int)) (s : SLState),
      (∀ p ∈ ls, (((p : List Char × Int).2.tdiv usec)).fdiv cfg.timesyncPeriod = W) →
      ((runLines cfg s ls).1).Pairwise (fun a b => a.meta.clockDrift = b.meta.clockDrift)) := by
  refine ⟨?_, ?_, ?_⟩
  · intro s line now s' m h hw
    have hcl := stepLine_clock cfg s line now s' m h
    exact ⟨(hcl.1 hw).1, (hcl.1 hw).2.1⟩
  · intro s line now s' m h hle
    exact (stepLine_clock cfg s line now s' m h).2.1 hle
  · intro W ls s hW
    exact runLines_drift_pairwise cfg W ls s hW

/-- C2, witness: both datagrams of the concrete single-window run are
published with pairwise identical `clock-drift`. -/
theorem C2_witness :
    ((runLines cfgDefault sReady c2Stream).1).Pairwise
      (fun a b => a.meta.clockDrift = b.meta.clockDrift) ∧
    (runLines cfgDefault sReady c2Stream).1.length = 2 := by
  constructor
  · exact (C2_resync_window cfgDefault).2.2 20000 c2Stream sReady (by decide)
  · decide

theorem timedeltaSeconds_of_small (d : Int) (h0 : 0 ≤ d) (h1 : d < dayUs) :
    timedeltaSeconds d = d.fdiv usec := by
  unfold timedeltaSeconds
  have : d.fmod dayUs = d := by
    rw [Int.fmod_eq_emod _ (by decide : (0:Int) ≤ dayUs)]
    exact Int.emod_eq_of_lt h0 h1
  rw [this]

/-- C1, amended.  For every finalized datagram with a well-formed device
timestamp, the corrected `telegram-timestamp` equals the (post-resync)
wall reference plus Python's `timedelta.seconds` of the difference between
the device timestamp and the (post-resync) device reference — i.e. the
difference with its whole-day part discarded — rounded to whole seconds.
This equals the claim's whole-seconds difference only when the difference
is nonnegative and below one day. -/
theorem C1_amended (cfg : Config) (s : SLState) (line : List Char) (now : Int)
    (raw : List Char) (tdev : Int)
    (h0 : s.skipRemaining = 0) (h1 : s.firstLineRead = true) (hf : isFooter line = true)
    (htag : lookupField s.telegram tagKey = some (FieldValue.s raw))
    (hts : parseDeviceTimestamp raw = some tdev) :
    ∃ s2 msg, stepLine cfg s line now = some (s2, some msg) ∧
      msg.meta.telegramTimestamp = roundMicros (s2.firstDatagramTime +
        timedeltaSeconds (tdev * usec - s2.firstDatagramTimestamp) * usec) ∧
      (∀ d : Int, 0 ≤ d → d < dayUs → timedeltaSeconds d = d.fdiv usec) := by
  have hne : line ≠ [] := by
    intro he
    rw [he] at hf
    exact absurd hf (by decide)
  have htg : lookupField (upsert s.telegram ("checksum".toList) (FieldValue.s (line.drop 1)))
      tagKey = some (FieldValue.s raw) := by
    rw [lookupField_upsert_ne _ _ _ _ (by decide)]
    exact htag
  have hhast : hasTag (upsert s.telegram ("checksum".toList) (FieldValue.s (line.drop 1))) = true := by
    unfold hasTag
    rw [htg]
    rfl
  simp only [stepLine, h0, h1, hf, hne]
  simp only [if_neg (by simp : ¬(0:Nat) ≠ 0), if_neg (by simp [hne] : ¬(line.length = 0))]
  simp only [not_true_eq_false, false_and, if_false, if_true, ite_true, ite_false, hhast]
  unfold process_datagram
  dsimp only []
  rw [htg]
  dsimp only []
  rw [hts]
  dsimp only []
  by_cases hw : (now.tdiv usec).fdiv cfg.timesyncPeriod ≠ s.previousBlock
  · rw [if_pos hw]
    exact ⟨_, _, rfl, rfl, timedeltaSeconds_of_small⟩
  · rw [if_neg hw]
    exact ⟨_, _, rfl, rfl, timedeltaSeconds_of_small⟩

/-- C10, amended.  From the startup clock state (references seeded two
periods back, stored block 0), the first finalized datagram triggers an
immediate drift recomputation WHENEVER its arrival wall time lies in a
nonzero window (`int(now) // period ≠ 0`, true for every realistic clock);
the trigger is the window comparison against the initial block 0, not the
seeding.  For arrival times inside window 0 the initial zero drift is
reused instead (see the counterexample). -/
theorem C10_amended (cfg : Config) (now0 : Int) (s : SLState) (line : List Char) (now : Int)
    (raw : List Char) (tdev : Int)
    (h0 : s.skipRemaining = 0) (h1 : s.firstLineRead = true) (hf : isFooter line = true)
    (hprev : s.previousBlock = 0)
    (hrefT : s.firstDatagramTime = now0 - 2 * cfg.timesyncPeriod * usec)
    (hrefD : s.firstDatagramTimestamp = now0 - 2 * cfg.timesyncPeriod * usec)
    (htag : lookupField s.telegram tagKey = some (FieldValue.s raw))
    (hts : parseDeviceTimestamp raw = some tdev)
    (hW : (now.tdiv usec).fdiv cfg.timesyncPeriod ≠ 0) :
    ∃ s2 msg, stepLine cfg s line now = some (s2, some msg) ∧
      s2.firstDatagramTime = now ∧ s2.firstDatagramTimestamp = tdev * usec ∧
      s2.previousBlock = (now.tdiv usec).fdiv cfg.timesyncPeriod ∧
      s2.deltaTime = (s.frameStartTime - (now0 - 2 * cfg.timesyncPeriod * usec)) -
        (tdev * usec - (now0 - 2 * cfg.timesyncPeriod * usec)) ∧
      msg.meta.clockDrift = s2.deltaTime := by
  have hne : line ≠ [] := by
    intro he
    rw [he] at hf
    exact absurd hf (by decide)
  have htg : lookupField (upsert s.telegram ("checksum".toList) (FieldValue.s (line.drop 1)))
      tagKey = some (FieldValue.s raw) := by
    rw [lookupField_upsert_ne _ _ _ _ (by decide)]
    exact htag
  have hhast : hasTag (upsert s.telegram ("checksum".toList) (FieldValue.s (line.drop 1))) = true := by
    unfold hasTag
    rw [htg]
    rfl
  have hw : (now.tdiv usec).fdiv cfg.timesyncPeriod ≠ s.previousBlock := by
    rw [hprev]
    exact hW
  simp only [stepLine, h0, h1, hf, hne]
  simp only [if_neg (by simp : ¬(0:Nat) ≠ 0), if_neg (by simp [hne] : ¬(line.length = 0))]
  simp only [not_true_eq_false, false_and, if_false, if_true, ite_true, ite_false, hhast]
  unfold process_datagram
  dsimp only []
  rw [htg]
  dsimp only []
  rw [hts]
  dsimp only []
  rw [if_pos hw]
  refine ⟨_, _, rfl, rfl, rfl, rfl, ?_, rfl⟩
  rw [hrefT, hrefD]

theorem lookupField_upsert_self (tg : List (List Char × FieldValue)) (k : List Char)
    (v : FieldValue) : lookupField (upsert tg k v) k = some v := by
  induction tg with
  | nil => simp [upsert, lookupField]
  | cons p r ih =>
    by_cases hk : p.1 = k
    · simp [upsert, hk, lookupField]
    · simp [upsert, hk, lookupField, ih]

/-- A stretch of non-footer lines while inside a datagram publishes
nothing and leaves the loop inside a (possibly grown) datagram. -/
theorem runLines_body : ∀ (ls : List (List Char × Int)) (cfg : Config) (s : SLState),
    s.skipRemaining = 0 → s.firstLineRead = true →
    (∀ p ∈ ls, isFooter (p : List Char × Int).1 = false) →
    (runLines cfg s ls).1 = [] ∧
    (∀ s', (runLines cfg s ls).2 = some s' →
      s'.skipRemaining = 0 ∧ s'.firstLineRead = true)
  | [], cfg, s => by
    intro h0 h1 _
    refine ⟨rfl, fun s' h => ?_⟩
    simp only [runLines] at h
    cases h
    exact ⟨h0, h1⟩
  | (l, t) :: rest, cfg, s => by
    intro h0 h1 hl
    have hf : isFooter l = false := hl (l, t) (by simp)
    by_cases hlen : l.length = 0
    · have hstep : stepLine cfg s l t = some (s, none) := by
        simp [stepLine, h0, hlen]
      simp only [runLines, hstep]
      have ih := runLines_body rest cfg s h0 h1 (fun p hp => hl p (by simp [hp]))
      simpa using ih
    · rw [runLines]
      rw [stepLine_data cfg s l t h0 h1 hlen hf]
      cases hp : parseDataLine s.telegram l with
      | none => simp
      | some tg =>
        have ih := runLines_body rest cfg { s with telegram := tg }
          (by simpa using h0) (by simpa using h1) (fun p hp => hl p (by simp [hp]))
        simpa using ih

/-- Finalizing a datagram whose telegram holds a parseable device
timestamp publishes exactly one message whose telegram is the finalized
dict (checksum = the footer's trailing 4 characters), and returns the
framer to awaiting-header. -/
theorem stepLine_footer_publish (cfg : Config) (s : SLState) (line : List Char) (now : Int)
    (raw : List Char) (tdev : Int)
    (h0 : s.skipRemaining = 0) (h1 : s.firstLineRead = true) (hf : isFooter line = true)
    (htag : lookupField s.telegram tagKey = some (FieldValue.s raw))
    (hts : parseDeviceTimestamp raw = some tdev) :
    ∃ s2 msg, stepLine cfg s line now = some (s2, some msg) ∧
      msg.telegram = upsert s.telegram ("checksum".toList) (FieldValue.s (line.drop 1)) ∧
      s2.firstLineRead = false ∧ s2.skipRemaining = 0 ∧ s2.telegram = [] := by
  have hne : line ≠ [] := by
    intro he
    rw [he] at hf
    exact absurd hf (by decide)
  have htg : lookupField (upsert s.telegram ("checksum".toList) (FieldValue.s (line.drop 1)))
      tagKey = some (FieldValue.s raw) := by
    rw [lookupField_upsert_ne _ _ _ _ (by decide)]
    exact htag
  have hhast : hasTag (upsert s.telegram ("checksum".toList) (FieldValue.s (line.drop 1))) = true := by
    unfold hasTag
    rw [htg]
    rfl
  simp only [stepLine, h0, h1, hf, hne]
  simp only [if_neg (by simp : ¬(0:Nat) ≠ 0), if_neg (by simp [hne] : ¬(line.length = 0))]
  simp only [not_true_eq_false, false_and, if_false, if_true, ite_true, ite_false, hhast]
  unfold process_datagram
  dsimp only []
  rw [htg]
  dsimp only []
  rw [hts]
  dsimp only []
  by_cases hw : (now.tdiv usec).fdiv cfg.timesyncPeriod ≠ s.previousBlock
  · rw [if_pos hw]
    exact ⟨_, _, rfl, rfl, rfl, rfl, rfl⟩
  · rw [if_neg hw]
    exact ⟨_, _, rfl, rfl, rfl, rfl, rfl⟩

/-- C5, amended.  (i) A datagram bounded by a header line and a 5-character
`!`-footer, whose body raises no parse exception and whose `0-0:1.0.0`
field holds a parseable device timestamp, is published exactly once, with
`checksum` equal to the footer's trailing 4 characters, and the framer is
afterwards again awaiting a header.  (ii) When the finalized telegram
lacks the tag, nothing is published and the framer still returns to
awaiting a header.  (The unamended claim fails when the timestamp value
does not parse: the loop then dies without publishing, see the
counterexample.) -/
theorem C5_amended (cfg : Config) (s : SLState) (header footer : List Char)
    (t0 t2 : Int) (body : List (List Char × Int)) (sMid : SLState)
    (raw : List Char) (tdev : Int)
    (h0 : s.skipRemaining = 0) (h1 : s.firstLineRead = false)
    (hh : header.head? = some '/') (hhn : header.length ≠ 0)
    (hb : ∀ p ∈ body, isFooter (p : List Char × Int).1 = false)
    (hf : isFooter footer = true)
    (hrun : (runLines cfg (headerState s header t0) body).2 = some sMid)
    (htag : lookupField sMid.telegram tagKey = some (FieldValue.s raw))
    (hts : parseDeviceTimestamp raw = some tdev) :
    (∃ s2 msg, runLines cfg s ((header, t0) :: (body ++ [(footer, t2)])) = ([msg], some s2) ∧
      lookupField msg.telegram ("checksum".toList) = some (FieldValue.s (footer.drop 1)) ∧
      s2.firstLineRead = false ∧ s2.skipRemaining = 0) ∧
    (∀ (s3 : SLState) (l : List Char) (tn : Int),
      s3.skipRemaining = 0 → s3.firstLineRead = true → isFooter l = true →
      hasTag s3.telegram = false →
      stepLine cfg s3 l tn = some ({ s3 with firstLineRead := false, telegram := [] }, none)) := by
  constructor
  · have hstep : stepLine cfg s header t0 = some (headerState s header t0, none) := by
      simp [stepLine, headerState, h0, h1, hhn, hh]
    have hbody := runLines_body body cfg (headerState s header t0)
      (by simp [headerState, h0]) (by simp [headerState]) hb
    have hmid := hbody.2 sMid hrun
    obtain ⟨s2, msg, hfoot, htel, hflr, hskip, _⟩ :=
      stepLine_footer_publish cfg sMid footer t2 raw tdev hmid.1 hmid.2 hf htag hts
    refine ⟨s2, msg, ?_, ?_, hflr, hskip⟩
    · simp only [runLines, hstep]
      rw [runLines_append_some cfg _ sMid body [(footer, t2)] hrun]
      rw [hbody.1]
      simp [runLines, hfoot]
    · rw [htel]
      exact lookupField_upsert_self _ _ _
  · intro s3 l tn g0 g1 gf gtag
    exact stepLine_footer_no_tag cfg s3 l tn g0 g1 gf gtag

/-- C1, amended, witness: the formula applied at the concrete one-day
difference state (where the whole-day part is discarded). -/
theorem C1_amended_witness :
    ∃ s2 msg, stepLine cfgDefault sC1 ("!abcd".toList) 1728000050000000 =
        some (s2, some msg) ∧
      msg.meta.telegramTimestamp = roundMicros (s2.firstDatagramTime +
        timedeltaSeconds (1727827200 * usec - s2.firstDatagramTimestamp) * usec) ∧
      (∀ d : Int, 0 ≤ d → d < dayUs → timedeltaSeconds d = d.fdiv usec) := by
  have h0 : sC1.skipRemaining = 0 := by decide
  have h1 : sC1.firstLineRead = true := by decide
  have htag : lookupField sC1.telegram tagKey = some (FieldValue.s ("241002000000S".toList)) := by
    decide
  exact C1_amended cfgDefault sC1 ("!abcd".toList) 1728000050000000
    ("241002000000S".toList) 1727827200 h0 h1 (by decide) htag (by decide)

/-- C10, amended, witness: from the concrete startup state, a first
datagram arriving at epoch second 1728000050 (window 20000 ≠ 0) is
re-anchored: references move to `now` and the device time, and the
message carries the freshly computed drift. -/
theorem C10_amended_witness :
    ∃ s2 msg, stepLine cfgDefault sC10w ("!abcd".toList) 1728000050000000 =
        some (s2, some msg) ∧
      s2.firstDatagramTime = 1728000050000000 ∧
      s2.firstDatagramTimestamp = 1727827200 * usec ∧
      s2.previousBlock = ((1728000050000000 : Int).tdiv usec).fdiv cfgDefault.timesyncPeriod ∧
      s2.deltaTime = (sC10w.frameStartTime - (1728000000000000 - 2 * cfgDefault.timesyncPeriod * usec)) -
        (1727827200 * usec - (1728000000000000 - 2 * cfgDefault.timesyncPeriod * usec)) ∧
      msg.meta.clockDrift = s2.deltaTime := by
  have h0 : sC10w.skipRemaining = 0 := by decide
  have h1 : sC10w.firstLineRead = true := by decide
  have htag : lookupField sC10w.telegram tagKey = some (FieldValue.s ("241002000000S".toList)) := by
    decide
  exact C10_amended cfgDefault 1728000000000000 sC10w ("!abcd".toList) 1728000050000000
    ("241002000000S".toList) 1727827200 h0 h1 (by decide) (by decide) (by decide) (by decide)
    htag (by decide) (by decide)

/-- C5, amended, witness: a concrete well-formed datagram is published
exactly once with its checksum, ending back awaiting a header. -/
theorem C5_amended_witness :
    (∃ s2 msg, runLines cfgDefault sReady
        (("/ISK5".toList, 1728000010000000) ::
          ([("0-0:1.0.0(241002000000S)".toList, 1728000011000000)] ++
            [("!abcd".toList, 1728000013000000)])) = ([msg], some s2) ∧
      lookupField msg.telegram ("checksum".toList) =
        some (FieldValue.s (("!abcd".toList).drop 1)) ∧
      s2.firstLineRead = false ∧ s2.skipRemaining = 0) ∧
    (∀ (s3 : SLState) (l : List Char) (tn : Int),
      s3.skipRemaining = 0 → s3.firstLineRead = true → isFooter l = true →
      hasTag s3.telegram = false →
      stepLine cfgDefault s3 l tn =
        some ({ s3 with firstLineRead := false, telegram := [] }, none)) := by
  have h0 : sReady.skipRemaining = 0 := by decide
  have h1 : sReady.firstLineRead = false := by decide
  exact C5_amended cfgDefault sReady ("/ISK5".toList) ("!abcd".toList)
    1728000010000000 1728000013000000
    [("0-0:1.0.0(241002000000S)".toList, 1728000011000000)]
    c5Mid
    ("241002000000S".toList) 1727827200
    h0 h1 (by decide) (by decide) (by decide) (by decide) (by decide) (by decide) (by decide)
